import Mathlib

/-!
Shallow embedding of `finalynx/portfolio/folder.py`: the portfolio tree of
`Line`, `Folder` and `SharedFolder` nodes, its aggregation queries
(`get_amount`, `get_currency`, `get_ideal`, `get_perf`), attribute
propagation (`set_child_attribs`, `add_child`), the processing pass
(`Folder.process`, `SharedFolder.process`), fetch-record matching
(`match_lines`) and the nested-map serialisation (`to_dict` / `from_dict`).

Python floats are embedded as rationals (`ℚ`); the collaborator value types
that live outside `folder.py` (`Line`, `LinePerf`, `Target`, `Bucket`,
`Envelope`, the fetch record) are modelled from the spec's collaborator
contracts, each marked `Modelled from the spec:` in its doc comment.
Mutation is embedded as explicit state passing: a method that mutates a node
returns the updated node.
-/

/-- Modelled from the spec: the asset-class enumeration of `constants.py`
(outside `folder.py`); only the UNKNOWN sentinel is distinguished, the other
members are opaque tags. -/
inductive AssetClass where
  | unknown
  | known (tag : String)
deriving DecidableEq

/-- Modelled from the spec: the asset-subclass enumeration of `constants.py`
(outside `folder.py`), with its UNKNOWN sentinel. -/
inductive AssetSubclass where
  | unknown
  | known (tag : String)
deriving DecidableEq

/-- Modelled from the spec: the performance descriptor of `line.py` (outside
`folder.py`): an expected yearly performance and a skip marker. `LinePerf(x)`
has `skip=false` by default. -/
structure LinePerf where
  expected : ℚ
  skip : Bool
deriving DecidableEq

/-- Modelled from the spec: an `Envelope` (outside `folder.py`) as used by
`folder.py`: a shared reference carrying a display name and an account key. -/
structure Envelope where
  name : String
  key : String
deriving DecidableEq

/-- Modelled from the spec: the `Target` contract consumed by `folder.py`:
`check()` either reports no target (`RESULT_NONE`) or a concrete result, a
ratio-kind target (`TargetRatio`) carries its `target_ratio` percentage, and
`get_ideal()` yields the target's ideal amount. The ideal amount is carried
as abstract data. -/
inductive Target where
  | tNone
  | tRatio (target_ratio : ℚ) (ideal : ℚ)
  | tOther (ideal : ℚ)
deriving DecidableEq

/-- Whether `target.check()` returns `Target.RESULT_NONE` (no target set). -/
def Target.check_none : Target → Bool
  | .tNone => true
  | .tRatio _ _ => false
  | .tOther _ => false

/-- Modelled from the spec: `Target.get_ideal()` yields the target's ideal
amount; a no-target sentinel contributes zero. -/
def Target.get_ideal : Target → ℚ
  | .tNone => 0
  | .tRatio _ i => i
  | .tOther i => i

/-- Modelled from the spec: a leaf `Line` of `line.py` (outside `folder.py`)
with the fields `folder.py` reads and writes. `folder.py` dereferences
`line.perf.skip` unconditionally, so a `Line` always carries a performance
descriptor (Python object truthiness makes it always truthy). -/
structure Line where
  name : String
  asset_class : AssetClass
  asset_subclass : AssetSubclass
  target : Target
  newline : Bool
  perf : LinePerf
  currency : Option String
  envelope : Option Envelope
  amount : ℚ
deriving DecidableEq

/-- Modelled from the spec: `Line.get_amount()` returns the line's amount. -/
def Line.get_amount (l : Line) : ℚ := l.amount

/-- Modelled from the spec: `Line.get_currency()` returns the line's currency
string; the default symbol when unset is irrelevant to every claim. -/
def Line.get_currency (l : Line) : String := l.currency.getD "EUR"

/-- Modelled from the spec: `Line.get_ideal()` follows the line's target. -/
def Line.get_ideal (l : Line) : ℚ := l.target.get_ideal

/-- Modelled from the spec: `Line.get_perf()` returns the line's own
performance descriptor; it takes no ideal flag. -/
def Line.get_perf (l : Line) : LinePerf := l.perf

/-- Modelled from the spec: a `Bucket` (outside `folder.py`): a name, its
initial pool of lines, and the `use_amount` allocator returning the ordered
lines funded up to the requested amount. The pool mutation performed by the
real allocator only matters across several `SharedFolder`s drawing from one
bucket, which no claim exercises, so the allocator is embedded as a pure
function of the requested amount. -/
structure Bucket where
  name : String
  lines : List Line
  use_amount : ℚ → List Line

/-- Modelled from the spec: a fetched investment record (`FetchLine`, outside
`folder.py`): the account identifier, the line synthesized by
`generate_line()`, and the external `matches_line` predicate. -/
structure FetchLine where
  account : String
  generated : Line
  matches_line : Line → Bool

/-- FolderDisplay: EXPANDED, COLLAPSED or LINE. -/
inductive FolderDisplay where
  | expanded
  | collapsed
  | line
deriving DecidableEq

/-- The integer `.value` of a FolderDisplay member, as serialized. -/
def FolderDisplay.value : FolderDisplay → ℚ
  | .expanded => 0
  | .collapsed => 1
  | .line => 2

/-- The portfolio tree: a `Line` leaf, a `Folder` with its ordered children,
or a `SharedFolder` (a Folder that additionally references a `Bucket` and a
`target_amount`). Parent back-references are non-owning and only kept
consistent for rendering, so they are not modelled. -/
inductive Node where
  | line (l : Line)
  | folder (name : String) (asset_class : AssetClass) (asset_subclass : AssetSubclass)
      (target : Target) (children : List Node) (newline : Bool) (display : FolderDisplay)
      (perf : Option LinePerf) (currency : Option String) (envelope : Option Envelope)
  | shared_folder (name : String) (asset_class : AssetClass) (asset_subclass : AssetSubclass)
      (target : Target) (children : List Node) (newline : Bool) (display : FolderDisplay)
      (perf : Option LinePerf) (currency : Option String) (envelope : Option Envelope)
      (bucket : Bucket) (target_amount : ℚ)

/-- The node's children list (empty for a leaf line). -/
def node_children : Node → List Node
  | .line _ => []
  | .folder _ _ _ _ cs _ _ _ _ _ => cs
  | .shared_folder _ _ _ _ cs _ _ _ _ _ _ _ => cs

/-- The node's newline flag. -/
def node_newline : Node → Bool
  | .line l => l.newline
  | .folder _ _ _ _ _ nl _ _ _ _ => nl
  | .shared_folder _ _ _ _ _ nl _ _ _ _ _ _ => nl

/-- The node's target. -/
def node_target : Node → Target
  | .line l => l.target
  | .folder _ _ _ t _ _ _ _ _ _ => t
  | .shared_folder _ _ _ t _ _ _ _ _ _ _ _ => t

/-- The node's asset class. -/
def node_asset_class : Node → AssetClass
  | .line l => l.asset_class
  | .folder _ ac _ _ _ _ _ _ _ _ => ac
  | .shared_folder _ ac _ _ _ _ _ _ _ _ _ _ => ac

/-- The node's asset subclass. -/
def node_asset_subclass : Node → AssetSubclass
  | .line l => l.asset_subclass
  | .folder _ _ asc _ _ _ _ _ _ _ => asc
  | .shared_folder _ _ asc _ _ _ _ _ _ _ _ _ => asc

/-- The node's performance field: always present on a line (object truthy in
Python), optional on folders. -/
def node_perf : Node → Option LinePerf
  | .line l => some l.perf
  | .folder _ _ _ _ _ _ _ p _ _ => p
  | .shared_folder _ _ _ _ _ _ _ p _ _ _ _ => p

/-- The node's currency field. -/
def node_currency : Node → Option String
  | .line l => l.currency
  | .folder _ _ _ _ _ _ _ _ cur _ => cur
  | .shared_folder _ _ _ _ _ _ _ _ cur _ _ _ => cur

/-- The node's envelope field. -/
def node_envelope : Node → Option Envelope
  | .line l => l.envelope
  | .folder _ _ _ _ _ _ _ _ _ env => env
  | .shared_folder _ _ _ _ _ _ _ _ _ env _ _ => env

/-- Replace a node's children list, keeping every other field. -/
def with_children : Node → List Node → Node
  | .line l, _ => .line l
  | .folder n ac asc t _ nl d p cur env, cs => .folder n ac asc t cs nl d p cur env
  | .shared_folder n ac asc t _ nl d p cur env b ta, cs =>
      .shared_folder n ac asc t cs nl d p cur env b ta

/-- Set a node's newline flag, keeping every other field (the assignment
`self.children[-1].newline = self.newline`). -/
def set_newline : Node → Bool → Node
  | .line l, nl => .line { l with newline := nl }
  | .folder n ac asc t cs _ d p cur env, nl => .folder n ac asc t cs nl d p cur env
  | .shared_folder n ac asc t cs _ d p cur env b ta, nl =>
      .shared_folder n ac asc t cs nl d p cur env b ta

/-- Folder.get_amount: the sum of the children's amounts, 0 when empty
(`float(np.sum(...) if self.children else 0)`). -/
def get_amount : Node → ℚ
  | .line l => l.get_amount
  | .folder _ _ _ _ cs _ _ _ _ _ => (cs.attach.map (fun c => get_amount c.1)).sum
  | .shared_folder _ _ _ _ cs _ _ _ _ _ _ _ => (cs.attach.map (fun c => get_amount c.1)).sum
termination_by n => sizeOf n
decreasing_by
  all_goals
    have h := List.sizeOf_lt_of_mem c.2
    first
    | simp only [Node.folder.sizeOf_spec]; omega
    | simp only [Node.shared_folder.sizeOf_spec]; omega

/-- The common-or-sentinel choice of Folder.get_currency: Python's
`if currencies and currencies.count(currencies[0]) == len(currencies)`. -/
def common_currency : List String → String
  | [] => "#"
  | c :: rest => if (c :: rest).count c = (c :: rest).length then c else "#"

/-- Folder.get_currency: the children's common currency when they all agree,
otherwise the unknown-currency sentinel. -/
def get_currency : Node → String
  | .line l => l.get_currency
  | .folder _ _ _ _ cs _ _ _ _ _ => common_currency (cs.attach.map (fun c => get_currency c.1))
  | .shared_folder _ _ _ _ cs _ _ _ _ _ _ _ =>
      common_currency (cs.attach.map (fun c => get_currency c.1))
termination_by n => sizeOf n
decreasing_by
  all_goals
    have h := List.sizeOf_lt_of_mem c.2
    first
    | simp only [Node.folder.sizeOf_spec]; omega
    | simp only [Node.shared_folder.sizeOf_spec]; omega

/-- Folder.get_ideal: the own target's ideal when a target is set, otherwise
the sum of the children's ideals. -/
def get_ideal : Node → ℚ
  | .line l => l.get_ideal
  | .folder _ _ _ t cs _ _ _ _ _ =>
      if t.check_none then (cs.attach.map (fun c => get_ideal c.1)).sum else t.get_ideal
  | .shared_folder _ _ _ t cs _ _ _ _ _ _ _ =>
      if t.check_none then (cs.attach.map (fun c => get_ideal c.1)).sum else t.get_ideal
termination_by n => sizeOf n
decreasing_by
  all_goals
    have h := List.sizeOf_lt_of_mem c.2
    first
    | simp only [Node.folder.sizeOf_spec]; omega
    | simp only [Node.shared_folder.sizeOf_spec]; omega

/-- The candidate children of Folder.get_perf: every child except the lines
whose performance is marked skip
(`[c for c in self.children if not (isinstance(c, Line) and c.perf.skip)]`). -/
def perf_candidates (cs : List Node) : List Node :=
  cs.filter (fun c => match c with | .line l => !l.perf.skip | _ => true)

/-- Folder.get_perf: the weighted mean of the candidate children's expected
performances, weighted by ideal (or current) amounts, equal weights `1/n`
when the weight bases sum to zero, and `(0, skip)` when there is no candidate
or every candidate's performance is skipped. A line ignores the ideal flag
(`Line.get_perf` takes no argument), so the source's isinstance dispatch
collapses to a uniform recursive call. -/
def get_perf : Node → Bool → LinePerf
  | .line l, _ => l.get_perf
  | .folder _ _ _ _ cs _ _ _ _ _, ideal =>
      let children' := perf_candidates cs
      let perfs := children'.attach.map (fun c => get_perf c.1 ideal)
      if children'.isEmpty || perfs.all (fun p => p.skip) then ⟨0, true⟩
      else
        let amounts := children'.map (fun c => if ideal then get_ideal c else get_amount c)
        let total := amounts.sum
        let weights :=
          if total = 0 then amounts.map (fun _ => (1 : ℚ) / children'.length)
          else amounts.map (fun e => e / total)
        ⟨((weights.zip perfs).map (fun wp => wp.1 * wp.2.expected)).sum, false⟩
  | .shared_folder _ _ _ _ cs _ _ _ _ _ _ _, ideal =>
      let children' := perf_candidates cs
      let perfs := children'.attach.map (fun c => get_perf c.1 ideal)
      if children'.isEmpty || perfs.all (fun p => p.skip) then ⟨0, true⟩
      else
        let amounts := children'.map (fun c => if ideal then get_ideal c else get_amount c)
        let total := amounts.sum
        let weights :=
          if total = 0 then amounts.map (fun _ => (1 : ℚ) / children'.length)
          else amounts.map (fun e => e / total)
        ⟨((weights.zip perfs).map (fun wp => wp.1 * wp.2.expected)).sum, false⟩
termination_by n _ => sizeOf n
decreasing_by
  all_goals
    have h1 : c.1 ∈ perf_candidates cs := c.2
    have h2 : c.1 ∈ cs := List.mem_of_mem_filter h1
    have h := List.sizeOf_lt_of_mem h2
    first
    | simp only [Node.folder.sizeOf_spec]; omega
    | simp only [Node.shared_folder.sizeOf_spec]; omega

/-- The attribute update Folder.set_child_attribs performs on a Line child:
asset class and subclass only when UNKNOWN; currency under Python string
truthiness (a None or empty incoming currency keeps the child's); envelope
whenever one is supplied (Envelope objects are always truthy); performance
only when the child's has `expected == 0` (a Line's perf object is always
truthy, so `not child.perf` is always false on a Line). -/
def set_line_attribs (l : Line) (asset_class : AssetClass) (asset_subclass : AssetSubclass)
    (perf : Option LinePerf) (currency : Option String) (envelope : Option Envelope) : Line :=
  { l with
    asset_class := if l.asset_class = AssetClass.unknown then asset_class else l.asset_class
    asset_subclass := if l.asset_subclass = AssetSubclass.unknown then asset_subclass
      else l.asset_subclass
    currency := match currency with
      | some c => if c = "" then l.currency else some c
      | none => l.currency
    envelope := match envelope with
      | some e => some e
      | none => l.envelope
    perf := match perf with
      | some q => if l.perf.expected = 0 then q else l.perf
      | none => l.perf }

/-- Folder.set_child_attribs: per-field push-down of the folder's defaults
into a freshly attached child, re-applied recursively to the child's own
descendants when the child is a folder. On a folder child, `not child.perf`
is true exactly when the optional perf is unset, and `if currency` /
`if envelope` follow Python truthiness (an Envelope object is always truthy;
a currency string is falsy when None or empty). -/
def set_child_attribs (child : Node) (asset_class : AssetClass) (asset_subclass : AssetSubclass)
    (perf : Option LinePerf) (currency : Option String) (envelope : Option Envelope) : Node :=
  match child with
  | .line l => .line (set_line_attribs l asset_class asset_subclass perf currency envelope)
  | .folder n ac asc t cs nl d p cur env =>
      .folder n
        (if ac = AssetClass.unknown then asset_class else ac)
        (if asc = AssetSubclass.unknown then asset_subclass else asc)
        t
        (cs.attach.map (fun c => set_child_attribs c.1 asset_class asset_subclass perf currency envelope))
        nl d
        (match perf with
         | some q => match p with
           | none => some q
           | some cp => if cp.expected = 0 then some q else some cp
         | none => p)
        (match currency with
         | some c => if c = "" then cur else some c
         | none => cur)
        (match envelope with
         | some e => some e
         | none => env)
  | .shared_folder n ac asc t cs nl d p cur env b ta =>
      .shared_folder n
        (if ac = AssetClass.unknown then asset_class else ac)
        (if asc = AssetSubclass.unknown then asset_subclass else asc)
        t
        (cs.attach.map (fun c => set_child_attribs c.1 asset_class asset_subclass perf currency envelope))
        nl d
        (match perf with
         | some q => match p with
           | none => some q
           | some cp => if cp.expected = 0 then some q else some cp
         | none => p)
        (match currency with
         | some c => if c = "" then cur else some c
         | none => cur)
        (match envelope with
         | some e => some e
         | none => env)
        b ta
termination_by sizeOf child
decreasing_by
  all_goals
    have h := List.sizeOf_lt_of_mem c.2
    first
    | simp only [Node.folder.sizeOf_spec]; omega
    | simp only [Node.shared_folder.sizeOf_spec]; omega

/-- Folder.add_child: append the child to the children list and apply
set_child_attribs with the folder's own attribute fields (the parent
back-reference assignment is not modelled). add_child is a Folder method; on
a leaf line the node is returned unchanged (unreachable from the source). -/
def add_child : Node → Node → Node
  | .folder n ac asc t cs nl d p cur env, child =>
      .folder n ac asc t (cs ++ [set_child_attribs child ac asc p cur env]) nl d p cur env
  | .shared_folder n ac asc t cs nl d p cur env b ta, child =>
      .shared_folder n ac asc t (cs ++ [set_child_attribs child ac asc p cur env]) nl d p cur env b ta
  | .line l, _ => .line l

/-- The height of a node in the tree, used as the termination measure of
match_lines (which appends a freshly synthesized leaf to the children before
scanning them). -/
def node_depth : Node → Nat
  | .line _ => 0
  | .folder _ _ _ _ cs _ _ _ _ _ => (cs.attach.map (fun c => node_depth c.1)).foldr max 0 + 1
  | .shared_folder _ _ _ _ cs _ _ _ _ _ _ _ =>
      (cs.attach.map (fun c => node_depth c.1)).foldr max 0 + 1
termination_by n => sizeOf n
decreasing_by
  all_goals
    have h := List.sizeOf_lt_of_mem c.2
    first
    | simp only [Node.folder.sizeOf_spec]; omega
    | simp only [Node.shared_folder.sizeOf_spec]; omega

theorem le_foldr_max {α : Type} (f : α → Nat) :
    ∀ (l : List α), ∀ x ∈ l, f x ≤ (l.map f).foldr max 0 := by
  intro l
  induction l with
  | nil => intro x hx; cases hx
  | cons a t ih =>
    intro x hx
    rcases List.mem_cons.mp hx with h | h
    · subst h; exact Nat.le_max_left _ _
    · exact Nat.le_trans (ih x h) (Nat.le_max_right _ _)

theorem node_depth_lt_folder {c : Node} {cs : List Node} (hc : c ∈ cs)
    (n : String) (ac : AssetClass) (asc : AssetSubclass) (t : Target) (nl : Bool)
    (d : FolderDisplay) (p : Option LinePerf) (cur : Option String) (env : Option Envelope) :
    node_depth c < node_depth (.folder n ac asc t cs nl d p cur env) := by
  rw [node_depth]
  have h1 : node_depth c ≤ (cs.attach.map (fun x => node_depth x.1)).foldr max 0 :=
    le_foldr_max (fun x => node_depth x.1) cs.attach ⟨c, hc⟩ (List.mem_attach cs ⟨c, hc⟩)
  omega

theorem node_depth_lt_shared {c : Node} {cs : List Node} (hc : c ∈ cs)
    (n : String) (ac : AssetClass) (asc : AssetSubclass) (t : Target) (nl : Bool)
    (d : FolderDisplay) (p : Option LinePerf) (cur : Option String) (env : Option Envelope)
    (b : Bucket) (ta : ℚ) :
    node_depth c < node_depth (.shared_folder n ac asc t cs nl d p cur env b ta) := by
  rw [node_depth]
  have h1 : node_depth c ≤ (cs.attach.map (fun x => node_depth x.1)).foldr max 0 :=
    le_foldr_max (fun x => node_depth x.1) cs.attach ⟨c, hc⟩ (List.mem_attach cs ⟨c, hc⟩)
  omega

/-- The Line held by a leaf node, none on a folder: the isinstance(child,
Line) dispatch of the children scan in match_lines. -/
def as_line : Node → Option Line
  | .line l => some l
  | _ => none

theorem node_depth_lt_folder_scan {c : Node} {cs : List Node} {g : Line} {hit : Bool}
    {n : String} {ac : AssetClass} {asc : AssetSubclass} {t : Target} {nl : Bool}
    {d : FolderDisplay} {p : Option LinePerf} {cur : Option String} {env : Option Envelope}
    (hc : c ∈ (if hit then cs ++ [Node.line g] else cs)) :
    node_depth c < node_depth (.folder n ac asc t cs nl d p cur env) := by
  by_cases hb : hit
  · rw [if_pos hb] at hc
    rcases List.mem_append.mp hc with h | h
    · exact node_depth_lt_folder h n ac asc t nl d p cur env
    · have : c = Node.line g := List.mem_singleton.mp h
      subst this
      rw [node_depth, node_depth]
      omega
  · rw [if_neg hb] at hc
    exact node_depth_lt_folder hc n ac asc t nl d p cur env

theorem node_depth_lt_shared_scan {c : Node} {cs : List Node} {g : Line} {hit : Bool}
    {n : String} {ac : AssetClass} {asc : AssetSubclass} {t : Target} {nl : Bool}
    {d : FolderDisplay} {p : Option LinePerf} {cur : Option String} {env : Option Envelope}
    {b : Bucket} {ta : ℚ}
    (hc : c ∈ (if hit then cs ++ [Node.line g] else cs)) :
    node_depth c < node_depth (.shared_folder n ac asc t cs nl d p cur env b ta) := by
  by_cases hb : hit
  · rw [if_pos hb] at hc
    rcases List.mem_append.mp hc with h | h
    · exact node_depth_lt_shared h n ac asc t nl d p cur env b ta
    · have : c = Node.line g := List.mem_singleton.mp h
      subst this
      rw [node_depth, node_depth]
      omega
  · rw [if_neg hb] at hc
    exact node_depth_lt_shared hc n ac asc t nl d p cur env b ta

/-- Folder.match_lines (inherited unchanged by SharedFolder): when the folder
has an envelope whose key or name equals the fetched record's account, a new
Line is synthesized from the record, attached as a child through add_child
(so it receives the folder's attribute push-down) and put in the match list;
then every child is scanned — Line children the record matches are collected,
folder children are recursed into and their updated subtree and matches are
taken. The first component is the updated (possibly mutated) node, the
second the ordered match list. A leaf line returns no match (match_lines is
a Folder method, unreachable on leaves). -/
def match_lines : Node → FetchLine → Node × List Line
  | .line l, _ => (.line l, [])
  | .folder n ac asc t cs nl d p cur env, fl =>
      let hit : Bool := match env with
        | some e => fl.account == e.key || fl.account == e.name
        | none => false
      let gen := set_line_attribs fl.generated ac asc p cur env
      let cs0 := if hit then cs ++ [Node.line gen] else cs
      let matched0 : List Line := if hit then [gen] else []
      let results := cs0.attach.map (fun c =>
        match as_line c.1 with
        | some l => (c.1, if fl.matches_line l then [l] else [])
        | none => match_lines c.1 fl)
      (.folder n ac asc t (results.map (fun r => r.1)) nl d p cur env,
       matched0 ++ (results.map (fun r => r.2)).flatten)
  | .shared_folder n ac asc t cs nl d p cur env b ta, fl =>
      let hit : Bool := match env with
        | some e => fl.account == e.key || fl.account == e.name
        | none => false
      let gen := set_line_attribs fl.generated ac asc p cur env
      let cs0 := if hit then cs ++ [Node.line gen] else cs
      let matched0 : List Line := if hit then [gen] else []
      let results := cs0.attach.map (fun c =>
        match as_line c.1 with
        | some l => (c.1, if fl.matches_line l then [l] else [])
        | none => match_lines c.1 fl)
      (.shared_folder n ac asc t (results.map (fun r => r.1)) nl d p cur env b ta,
       matched0 ++ (results.map (fun r => r.2)).flatten)
termination_by nd _ => node_depth nd
decreasing_by
  all_goals
    first
    | exact node_depth_lt_folder_scan c.2
    | exact node_depth_lt_shared_scan c.2

/-- The warning Folder.process logs when the children's ratio targets sum to
neither 0 nor 100. -/
def ratio_warning (name : String) : String :=
  "WARNING: Folder " ++ name ++ " total ratio should sum to 100."

/-- A child's contribution to Folder.process's total_ratio accumulator: its
target_ratio when its target is ratio-kind (`isinstance(child.target,
TargetRatio)`), nothing otherwise. -/
def child_ratio (c : Node) : Option ℚ :=
  match node_target c with
  | .tRatio r _ => some r
  | _ => none

/-- SharedFolder.process's last step (`self.children[-1].newline =
self.newline`, guarded by `if self.children`): the last child's newline flag
is set to the folder's own flag; earlier children are untouched; the empty
list is returned unchanged. -/
def set_last_newline : List Node → Bool → List Node
  | [], _ => []
  | [c], nl => [set_newline c nl]
  | c :: c' :: rest, nl => c :: set_last_newline (c' :: rest) nl

/-- Node.process. A Line's processing has no folder-visible effect (modelled
from the spec). Folder.process processes every child in order, accumulates
target_ratio over children whose target is ratio-kind, and logs an advisory
warning when the total is neither 0 nor 100 — it never raises. SharedFolder.
process first runs the Folder pass on the old children, then replaces the
children with the bucket's allocation for target_amount, re-parents them
(back-references not modelled) and, when the allocation is nonempty, sets
the last allocated child's newline flag to the folder's own. The second
component collects the logged warnings in order. -/
def process : Node → Node × List String
  | .line l => (.line l, [])
  | .folder n ac asc t cs nl d p cur env =>
      let results := cs.attach.map (fun c => process c.1)
      let cs' := results.map (fun r => r.1)
      let total_ratio := (cs'.filterMap child_ratio).sum
      (.folder n ac asc t cs' nl d p cur env,
       (results.map (fun r => r.2)).flatten ++
         (if total_ratio ≠ 0 ∧ total_ratio ≠ 100 then [ratio_warning n] else []))
  | .shared_folder n ac asc t cs nl d p cur env b ta =>
      let results := cs.attach.map (fun c => process c.1)
      let cs' := results.map (fun r => r.1)
      let total_ratio := (cs'.filterMap child_ratio).sum
      let warns := (results.map (fun r => r.2)).flatten ++
         (if total_ratio ≠ 0 ∧ total_ratio ≠ 100 then [ratio_warning n] else [])
      (.shared_folder n ac asc t (set_last_newline ((b.use_amount ta).map Node.line) nl)
         nl d p cur env b ta, warns)
termination_by nd => sizeOf nd
decreasing_by
  all_goals
    have h := List.sizeOf_lt_of_mem c.2
    first
    | simp only [Node.folder.sizeOf_spec]; omega
    | simp only [Node.shared_folder.sizeOf_spec]; omega

/-- A Python value as stored in the nested-map (dict) serialisation form:
strings, numbers, booleans, lists and string-keyed dicts. -/
inductive DVal where
  | s (v : String)
  | n (v : ℚ)
  | b (v : Bool)
  | arr (vs : List DVal)
  | dict (kvs : List (String × DVal))

/-- Python bool() truthiness of a stored value, used by from_dict's
`bool(dict[...])` conversions: empty strings, zero, false and empty
containers are falsy. -/
def DVal.truthy : DVal → Bool
  | .s v => !(v == "")
  | .n v => !(v == 0)
  | .b v => v
  | .arr vs => !vs.isEmpty
  | .dict kvs => !kvs.isEmpty

/-- The keys of a stored dict, in order. -/
def dval_keys : DVal → List String
  | .dict kvs => kvs.map (fun kv => kv.1)
  | _ => []

/-- Python `FolderDisplay(value)` enum construction: 0, 1 and 2 give the
members, anything else raises a ValueError (embedded as none). -/
def FolderDisplay.of_value : DVal → Option FolderDisplay
  | .n q => if q = 0 then some .expanded
      else if q = 1 then some .collapsed
      else if q = 2 then some .line
      else none
  | _ => none

/-- Modelled from the spec: Target.to_dict (targets.py is outside folder.py).
The serialised target form is opaque to folder.py and is modelled as a
faithful tagged encoding of the abstract target state. -/
def Target.to_dict : Target → DVal
  | .tNone => .dict [("type", .s "none")]
  | .tRatio r i => .dict [("type", .s "ratio"), ("target_ratio", .n r), ("ideal", .n i)]
  | .tOther i => .dict [("type", .s "other"), ("ideal", .n i)]

/-- Modelled from the spec: Target.from_dict, inverse of the encoding above;
malformed input raises (none). -/
def Target.from_dict : DVal → Option Target
  | .dict kvs =>
    match kvs.lookup "type" with
    | some (.s "none") => some .tNone
    | some (.s "ratio") =>
      match kvs.lookup "target_ratio", kvs.lookup "ideal" with
      | some (.n r), some (.n i) => some (.tRatio r i)
      | _, _ => none
    | some (.s "other") =>
      match kvs.lookup "ideal" with
      | some (.n i) => some (.tOther i)
      | _ => none
    | _ => none
  | _ => none

/-- Modelled from the spec: Line.to_dict (line.py is outside folder.py). The
spec fixes the "type" discriminator; name, target and newline mirror the
folder pattern; the remaining Line fields are not touched by any claim and
are not serialised in this model. -/
def Line.to_dict (l : Line) : DVal :=
  .dict [("type", .s "line"), ("name", .s l.name), ("target", l.target.to_dict),
         ("newline", .b l.newline)]

/-- Modelled from the spec: Line.from_dict, accepting the envelope registry
as in the interface; missing keys raise (none), the unserialised fields come
back as their construction defaults. -/
def Line.from_dict (d : DVal) (envelopes : List (String × Envelope)) : Option Line :=
  match d with
  | .dict kvs =>
    match kvs.lookup "name", kvs.lookup "target", kvs.lookup "newline" with
    | some (.s name), some td, some nv =>
      match Target.from_dict td with
      | some t => some ⟨name, .unknown, .unknown, t, nv.truthy, ⟨0, false⟩, none, none, 0⟩
      | none => none
    | _, _, _ => none
  | _ => none

/-- Folder.to_dict / SharedFolder.to_dict / Line.to_dict, dispatching on the
node variant; key sets and orders follow the source dict literals. -/
def to_dict : Node → DVal
  | .line l => l.to_dict
  | .folder n _ _ t cs nl d _ _ _ =>
      .dict [("type", .s "folder"), ("name", .s n), ("target", t.to_dict),
             ("children", .arr (cs.attach.map (fun c => to_dict c.1))),
             ("newline", .b nl), ("display", .n d.value)]
  | .shared_folder n _ _ t _ nl d _ _ _ b ta =>
      .dict [("type", .s "shared_folder"), ("name", .s n), ("bucket_name", .s b.name),
             ("target_amount", .n ta), ("target", t.to_dict), ("newline", .b nl),
             ("display", .n d.value)]
termination_by n => sizeOf n
decreasing_by
  all_goals
    have h := List.sizeOf_lt_of_mem c.2
    simp only [Node.folder.sizeOf_spec]
    omega

/-- Folder.__init__'s child attachment: each child is re-parented (not
modelled) and receives set_child_attribs with the folder's own fields. -/
def mk_folder (name : String) (asset_class : AssetClass) (asset_subclass : AssetSubclass)
    (target : Target) (children : List Node) (newline : Bool) (display : FolderDisplay)
    (perf : Option LinePerf) (currency : Option String) (envelope : Option Envelope) : Node :=
  .folder name asset_class asset_subclass target
    (children.map (fun c => set_child_attribs c asset_class asset_subclass perf currency envelope))
    newline display perf currency envelope

/-- SharedFolder.__init__: the children passed to the Folder base are the
bucket's lines, the newline passed up is false and the field is then set to
the given flag; perf, currency and envelope are not constructor parameters
and stay unset. -/
def mk_shared_folder (name : String) (asset_class : AssetClass) (asset_subclass : AssetSubclass)
    (target_amount : ℚ) (target : Target) (newline : Bool) (display : FolderDisplay)
    (bucket : Bucket) : Node :=
  .shared_folder name asset_class asset_subclass target
    ((bucket.lines.map Node.line).map
      (fun c => set_child_attribs c asset_class asset_subclass none none none))
    newline display none none none bucket target_amount

/-- SharedFolder.from_dict: name, bucket_name (resolved in the caller's
bucket registry, a missing name raises a KeyError), target_amount, target,
newline (through bool()) and display (through FolderDisplay()). -/
def SharedFolder.from_dict (d : DVal) (buckets : List (String × Bucket)) : Option Node :=
  match d with
  | .dict kvs =>
    match kvs.lookup "name", kvs.lookup "bucket_name", kvs.lookup "target_amount",
          kvs.lookup "target", kvs.lookup "newline", kvs.lookup "display" with
    | some (.s name), some (.s bn), some (.n ta), some td, some nv, some dv =>
      match buckets.lookup bn, Target.from_dict td, FolderDisplay.of_value dv with
      | some b, some t, some disp => some (mk_shared_folder name .unknown .unknown ta t nv.truthy disp b)
      | _, _, _ => none
    | _, _, _, _, _, _ => none
  | _ => none

/-- Reading `child_dict["type"]` in the children loop of Folder.from_dict: a
non-dict child or a missing "type" key raises (none). -/
def child_type : DVal → Option DVal
  | .dict kvs => kvs.lookup "type"
  | _ => none

theorem sizeOf_lookup_lt {k : String} {v : DVal} :
    ∀ {kvs : List (String × DVal)}, kvs.lookup k = some v → sizeOf v < sizeOf kvs := by
  intro kvs
  induction kvs with
  | nil => intro h; simp [List.lookup] at h
  | cons a tl ih =>
    intro h
    rw [List.lookup] at h
    rcases a with ⟨k', v'⟩
    by_cases hk : k == k'
    · rw [hk] at h
      simp only [Option.some.injEq] at h
      subst h
      simp only [List.cons.sizeOf_spec, Prod.mk.sizeOf_spec]
      omega
    · rw [Bool.of_not_eq_true hk] at h
      have := ih h
      simp only [List.cons.sizeOf_spec]
      omega

mutual

/-- One iteration of the children loop in Folder.from_dict, dispatching on
`child_dict["type"]`: `none` embeds a raised error (non-dict child or missing
key), `some none` an unrecognized type discriminator (the child is silently
skipped), `some (some nd)` a parsed child. -/
def parse_child (d : DVal) (buckets : List (String × Bucket))
    (envelopes : List (String × Envelope)) : Option (Option Node) :=
  match child_type d with
  | none => none
  | some ty =>
    match ty with
    | .s "line" =>
      match Line.from_dict d envelopes with
      | some l => some (some (.line l))
      | none => none
    | .s "folder" =>
      match Folder.from_dict d buckets envelopes with
      | some nd => some (some nd)
      | none => none
    | .s "shared_folder" =>
      match SharedFolder.from_dict d buckets with
      | some nd => some (some nd)
      | none => none
    | _ => some none
termination_by (sizeOf d, 1)
decreasing_by
  exact Prod.Lex.right _ (by omega)

/-- The children loop of Folder.from_dict: parsed children are appended in
order, unrecognized types are skipped, a raised error propagates. -/
def parse_children (ds : List DVal) (buckets : List (String × Bucket))
    (envelopes : List (String × Envelope)) : Option (List Node) :=
  match ds with
  | [] => some []
  | d :: rest =>
    match parse_child d buckets envelopes, parse_children rest buckets envelopes with
    | some (some nd), some ns => some (nd :: ns)
    | some none, some ns => some ns
    | _, _ => none
termination_by (sizeOf ds, 2)
decreasing_by
  · apply Prod.Lex.left
    simp only [List.cons.sizeOf_spec]
    omega
  · apply Prod.Lex.left
    simp only [List.cons.sizeOf_spec]
    omega

/-- Folder.from_dict: parse the children list (with per-type dispatch and
silent skip of unknown types), then construct the Folder from name, target,
display and newline; the constructed folder has default (UNKNOWN / unset)
asset class, subclass, perf, currency and envelope of its own. Names are
strings in the model (Python would store any value unchecked, but to_dict
only ever emits strings). -/
def Folder.from_dict (d : DVal) (buckets : List (String × Bucket))
    (envelopes : List (String × Envelope)) : Option Node :=
  match d with
  | .dict kvs =>
    match h : kvs.lookup "children" with
    | some (.arr cds) =>
      match parse_children cds buckets envelopes with
      | some children =>
        match kvs.lookup "name", kvs.lookup "target", kvs.lookup "display",
              kvs.lookup "newline" with
        | some (.s name), some td, some dv, some nv =>
          match Target.from_dict td, FolderDisplay.of_value dv with
          | some t, some disp =>
            some (mk_folder name .unknown .unknown t children nv.truthy disp none none none)
          | _, _ => none
        | _, _, _, _ => none
      | none => none
    | _ => none
  | _ => none
termination_by (sizeOf d, 0)
decreasing_by
  apply Prod.Lex.left
  have h1 := sizeOf_lookup_lt h
  simp only [DVal.arr.sizeOf_spec] at h1
  simp only [DVal.dict.sizeOf_spec]
  omega

end

mutual

/-- The round-trip preservation relation of the spec: same node variant, same
name, newline and target (and display for folders), with children pointwise
preserved; the attribute fields outside the serialised key set are not
compared. -/
def preserved_eq : Node → Node → Bool
  | .line l, .line l' => l.name == l'.name && l.newline == l'.newline && l.target == l'.target
  | .folder n _ _ t cs nl d _ _ _, .folder n' _ _ t' cs' nl' d' _ _ _ =>
      n == n' && nl == nl' && t == t' && d == d' && preserved_children cs cs'
  | .shared_folder n _ _ t cs nl d _ _ _ _ _, .shared_folder n' _ _ t' cs' nl' d' _ _ _ _ _ =>
      n == n' && nl == nl' && t == t' && d == d' && preserved_children cs cs'
  | _, _ => false
termination_by nd _ => (sizeOf nd, 0)
decreasing_by
  all_goals
    apply Prod.Lex.left
    first
    | simp only [Node.folder.sizeOf_spec]; omega
    | simp only [Node.shared_folder.sizeOf_spec]; omega

/-- Pointwise preservation of two children lists, in order. -/
def preserved_children : List Node → List Node → Bool
  | [], [] => true
  | c :: cs, c' :: cs' => preserved_eq c c' && preserved_children cs cs'
  | _, _ => false
termination_by cs _ => (sizeOf cs, 1)
decreasing_by
  · apply Prod.Lex.left
    simp only [List.cons.sizeOf_spec]
    omega
  · apply Prod.Lex.left
    simp only [List.cons.sizeOf_spec]
    omega

end

/-- The freshly-built state C8 quantifies over: every shared folder in the
tree still holds exactly its bucket's lines as children (as at construction
time, before any processing pass), and its bucket's name resolves in the
given registry to that same bucket. -/
def shared_ok (buckets : List (String × Bucket)) : Node → Prop
  | .line _ => True
  | .folder _ _ _ _ cs _ _ _ _ _ => ∀ c ∈ cs, shared_ok buckets c
  | .shared_folder _ _ _ _ cs _ _ _ _ _ b _ =>
      cs = b.lines.map Node.line ∧ buckets.lookup b.name = some b ∧
        ∀ c ∈ cs, shared_ok buckets c
termination_by nd => sizeOf nd
decreasing_by
  all_goals
    have hs := List.sizeOf_lt_of_mem (show c ∈ cs by assumption)
    first
    | simp only [Node.folder.sizeOf_spec]; omega
    | simp only [Node.shared_folder.sizeOf_spec]; omega

/-- Whether the tree holds at least one leaf line. -/
def contains_line : Node → Bool
  | .line _ => true
  | .folder _ _ _ _ cs _ _ _ _ _ => cs.attach.any (fun c => contains_line c.1)
  | .shared_folder _ _ _ _ cs _ _ _ _ _ _ _ => cs.attach.any (fun c => contains_line c.1)
termination_by nd => sizeOf nd
decreasing_by
  all_goals
    have hs := List.sizeOf_lt_of_mem c.2
    first
    | simp only [Node.folder.sizeOf_spec]; omega
    | simp only [Node.shared_folder.sizeOf_spec]; omega

/-- Whether the tree holds at least one plain (non-shared) folder. -/
def contains_folder : Node → Bool
  | .line _ => false
  | .folder _ _ _ _ _ _ _ _ _ _ => true
  | .shared_folder _ _ _ _ cs _ _ _ _ _ _ _ => cs.attach.any (fun c => contains_folder c.1)
termination_by nd => sizeOf nd
decreasing_by
  all_goals
    have hs := List.sizeOf_lt_of_mem c.2
    simp only [Node.shared_folder.sizeOf_spec]
    omega

/-- Whether the tree holds at least one shared folder. -/
def contains_shared_folder : Node → Bool
  | .line _ => false
  | .folder _ _ _ _ cs _ _ _ _ _ => cs.attach.any (fun c => contains_shared_folder c.1)
  | .shared_folder _ _ _ _ _ _ _ _ _ _ _ _ => true
termination_by nd => sizeOf nd
decreasing_by
  all_goals
    have hs := List.sizeOf_lt_of_mem c.2
    simp only [Node.folder.sizeOf_spec]
    omega

/-- Induction over the node tree with the children's property available
list-wide in the folder cases. -/
theorem node_induction (P : Node → Prop) (hl : ∀ l, P (.line l))
    (hf : ∀ n ac asc t cs nl d p cur env, (∀ c ∈ cs, P c) →
      P (.folder n ac asc t cs nl d p cur env))
    (hs : ∀ n ac asc t cs nl d p cur env b ta, (∀ c ∈ cs, P c) →
      P (.shared_folder n ac asc t cs nl d p cur env b ta)) : ∀ nd, P nd
  | .line l => hl l
  | .folder n ac asc t cs nl d p cur env =>
      hf n ac asc t cs nl d p cur env
        (fun c hc => node_induction P hl hf hs c)
  | .shared_folder n ac asc t cs nl d p cur env b ta =>
      hs n ac asc t cs nl d p cur env b ta
        (fun c hc => node_induction P hl hf hs c)
termination_by nd => sizeOf nd
decreasing_by
  all_goals
    have h := List.sizeOf_lt_of_mem hc
    first
    | simp only [Node.folder.sizeOf_spec]; omega
    | simp only [Node.shared_folder.sizeOf_spec]; omega

theorem attach_map {α β : Type} (l : List α) (F : α → β) :
    l.attach.map (fun x => F x.1) = l.map F := by
  simp [List.map_attach]

theorem get_amount_folder (n : String) (ac : AssetClass) (asc : AssetSubclass) (t : Target)
    (cs : List Node) (nl : Bool) (d : FolderDisplay) (p : Option LinePerf)
    (cur : Option String) (env : Option Envelope) :
    get_amount (.folder n ac asc t cs nl d p cur env) = (cs.map get_amount).sum := by
  rw [get_amount, attach_map]

theorem get_amount_shared (n : String) (ac : AssetClass) (asc : AssetSubclass) (t : Target)
    (cs : List Node) (nl : Bool) (d : FolderDisplay) (p : Option LinePerf)
    (cur : Option String) (env : Option Envelope) (b : Bucket) (ta : ℚ) :
    get_amount (.shared_folder n ac asc t cs nl d p cur env b ta) = (cs.map get_amount).sum := by
  rw [get_amount, attach_map]

theorem get_currency_folder (n : String) (ac : AssetClass) (asc : AssetSubclass) (t : Target)
    (cs : List Node) (nl : Bool) (d : FolderDisplay) (p : Option LinePerf)
    (cur : Option String) (env : Option Envelope) :
    get_currency (.folder n ac asc t cs nl d p cur env) =
      common_currency (cs.map get_currency) := by
  rw [get_currency, attach_map]

theorem get_ideal_folder (n : String) (ac : AssetClass) (asc : AssetSubclass) (t : Target)
    (cs : List Node) (nl : Bool) (d : FolderDisplay) (p : Option LinePerf)
    (cur : Option String) (env : Option Envelope) :
    get_ideal (.folder n ac asc t cs nl d p cur env) =
      (if t.check_none then (cs.map get_ideal).sum else t.get_ideal) := by
  rw [get_ideal]
  by_cases h : t.check_none <;> simp [h, attach_map]

theorem get_perf_folder (n : String) (ac : AssetClass) (asc : AssetSubclass) (t : Target)
    (cs : List Node) (nl : Bool) (d : FolderDisplay) (p : Option LinePerf)
    (cur : Option String) (env : Option Envelope) (ideal : Bool) :
    get_perf (.folder n ac asc t cs nl d p cur env) ideal =
      (let children' := perf_candidates cs
       let perfs := children'.map (fun c => get_perf c ideal)
       if children'.isEmpty || perfs.all (fun pf => pf.skip) then ⟨0, true⟩
       else
         let amounts := children'.map (fun c => if ideal then get_ideal c else get_amount c)
         let total := amounts.sum
         let weights :=
           if total = 0 then amounts.map (fun _ => (1 : ℚ) / children'.length)
           else amounts.map (fun e => e / total)
         ⟨((weights.zip perfs).map (fun wp => wp.1 * wp.2.expected)).sum, false⟩) := by
  rw [get_perf]
  simp only [List.map_attach, List.pmap_eq_map]

theorem process_folder (n : String) (ac : AssetClass) (asc : AssetSubclass) (t : Target)
    (cs : List Node) (nl : Bool) (d : FolderDisplay) (p : Option LinePerf)
    (cur : Option String) (env : Option Envelope) :
    process (.folder n ac asc t cs nl d p cur env) =
      (.folder n ac asc t (cs.map (fun c => (process c).1)) nl d p cur env,
       (cs.map (fun c => (process c).2)).flatten ++
         (if ((cs.map (fun c => (process c).1)).filterMap child_ratio).sum ≠ 0 ∧
             ((cs.map (fun c => (process c).1)).filterMap child_ratio).sum ≠ 100
          then [ratio_warning n] else [])) := by
  rw [process]
  simp only [attach_map, List.map_map]
  rfl

theorem process_shared (n : String) (ac : AssetClass) (asc : AssetSubclass) (t : Target)
    (cs : List Node) (nl : Bool) (d : FolderDisplay) (p : Option LinePerf)
    (cur : Option String) (env : Option Envelope) (b : Bucket) (ta : ℚ) :
    process (.shared_folder n ac asc t cs nl d p cur env b ta) =
      (.shared_folder n ac asc t (set_last_newline ((b.use_amount ta).map Node.line) nl)
         nl d p cur env b ta,
       (cs.map (fun c => (process c).2)).flatten ++
         (if ((cs.map (fun c => (process c).1)).filterMap child_ratio).sum ≠ 0 ∧
             ((cs.map (fun c => (process c).1)).filterMap child_ratio).sum ≠ 100
          then [ratio_warning n] else [])) := by
  rw [process]
  simp only [attach_map, List.map_map]
  rfl

theorem to_dict_folder (n : String) (ac : AssetClass) (asc : AssetSubclass) (t : Target)
    (cs : List Node) (nl : Bool) (d : FolderDisplay) (p : Option LinePerf)
    (cur : Option String) (env : Option Envelope) :
    to_dict (.folder n ac asc t cs nl d p cur env) =
      .dict [("type", .s "folder"), ("name", .s n), ("target", t.to_dict),
             ("children", .arr (cs.map to_dict)),
             ("newline", .b nl), ("display", .n d.value)] := by
  rw [to_dict, attach_map]

theorem match_lines_folder (n : String) (ac : AssetClass) (asc : AssetSubclass) (t : Target)
    (cs : List Node) (nl : Bool) (d : FolderDisplay) (p : Option LinePerf)
    (cur : Option String) (env : Option Envelope) (fl : FetchLine) :
    match_lines (.folder n ac asc t cs nl d p cur env) fl =
      (let hit : Bool := match env with
        | some e => fl.account == e.key || fl.account == e.name
        | none => false
       let gen := set_line_attribs fl.generated ac asc p cur env
       let cs0 := if hit then cs ++ [Node.line gen] else cs
       let results := cs0.map (fun c =>
        match as_line c with
        | some l => (c, if fl.matches_line l then [l] else [])
        | none => match_lines c fl)
       (.folder n ac asc t (results.map (fun r => r.1)) nl d p cur env,
        (if hit then [gen] else []) ++ (results.map (fun r => r.2)).flatten)) := by
  rw [match_lines.eq_def]
  simp only [List.map_attach, List.pmap_eq_map]

theorem set_child_attribs_folder (n : String) (ac : AssetClass) (asc : AssetSubclass)
    (t : Target) (cs : List Node) (nl : Bool) (d : FolderDisplay) (p : Option LinePerf)
    (cur : Option String) (env : Option Envelope) (asset_class : AssetClass)
    (asset_subclass : AssetSubclass) (perf : Option LinePerf) (currency : Option String)
    (envelope : Option Envelope) :
    set_child_attribs (.folder n ac asc t cs nl d p cur env)
        asset_class asset_subclass perf currency envelope =
      .folder n
        (if ac = AssetClass.unknown then asset_class else ac)
        (if asc = AssetSubclass.unknown then asset_subclass else asc)
        t
        (cs.map (fun c => set_child_attribs c asset_class asset_subclass perf currency envelope))
        nl d
        (match perf with
         | some q => match p with
           | none => some q
           | some cp => if cp.expected = 0 then some q else some cp
         | none => p)
        (match currency with
         | some c => if c = "" then cur else some c
         | none => cur)
        (match envelope with
         | some e => some e
         | none => env) := by
  rw [set_child_attribs.eq_def]
  simp only [List.map_attach, List.pmap_eq_map]

theorem set_child_attribs_shared (n : String) (ac : AssetClass) (asc : AssetSubclass)
    (t : Target) (cs : List Node) (nl : Bool) (d : FolderDisplay) (p : Option LinePerf)
    (cur : Option String) (env : Option Envelope) (b : Bucket) (ta : ℚ)
    (asset_class : AssetClass) (asset_subclass : AssetSubclass) (perf : Option LinePerf)
    (currency : Option String) (envelope : Option Envelope) :
    set_child_attribs (.shared_folder n ac asc t cs nl d p cur env b ta)
        asset_class asset_subclass perf currency envelope =
      .shared_folder n
        (if ac = AssetClass.unknown then asset_class else ac)
        (if asc = AssetSubclass.unknown then asset_subclass else asc)
        t
        (cs.map (fun c => set_child_attribs c asset_class asset_subclass perf currency envelope))
        nl d
        (match perf with
         | some q => match p with
           | none => some q
           | some cp => if cp.expected = 0 then some q else some cp
         | none => p)
        (match currency with
         | some c => if c = "" then cur else some c
         | none => cur)
        (match envelope with
         | some e => some e
         | none => env)
        b ta := by
  rw [set_child_attribs.eq_def]
  simp only [List.map_attach, List.pmap_eq_map]

theorem set_child_attribs_line (l : Line) (asset_class : AssetClass)
    (asset_subclass : AssetSubclass) (perf : Option LinePerf) (currency : Option String)
    (envelope : Option Envelope) :
    set_child_attribs (.line l) asset_class asset_subclass perf currency envelope =
      .line (set_line_attribs l asset_class asset_subclass perf currency envelope) := by
  rw [set_child_attribs.eq_def]

theorem get_amount_line (l : Line) : get_amount (.line l) = l.get_amount := by
  rw [get_amount]

theorem get_currency_line (l : Line) : get_currency (.line l) = l.get_currency := by
  rw [get_currency]

theorem get_ideal_line (l : Line) : get_ideal (.line l) = l.get_ideal := by
  rw [get_ideal]

theorem get_perf_line (l : Line) (ideal : Bool) : get_perf (.line l) ideal = l.get_perf := by
  rw [get_perf]

theorem process_line (l : Line) : process (.line l) = (.line l, []) := by
  rw [process]

theorem to_dict_line (l : Line) : to_dict (.line l) = l.to_dict := by
  rw [to_dict]

theorem set_last_newline_lines (nl : Bool) :
    ∀ (xs : List Line) (hne : xs ≠ []),
      set_last_newline (xs.map Node.line) nl =
        (xs.dropLast.map Node.line) ++ [Node.line { xs.getLast hne with newline := nl }] := by
  intro xs
  induction xs with
  | nil => intro hne; exact absurd rfl hne
  | cons x tl ih =>
    intro hne
    cases tl with
    | nil => simp [set_last_newline, set_newline]
    | cons y ys =>
      have h2 : (y :: ys : List Line) ≠ [] := List.cons_ne_nil y ys
      have step : set_last_newline ((x :: y :: ys).map Node.line) nl =
          Node.line x :: set_last_newline ((y :: ys).map Node.line) nl := by
        simp only [List.map_cons]
        rw [set_last_newline]
      rw [step, ih h2]
      simp [List.getLast_cons]

/-- C9: when the bucket allocation for the shared folder's target amount is
empty, process() completes and returns the folder with an empty children
list, every other field — the folder's own newline flag included — exactly as
before; in particular the flag is not transferred to any node and the
guarded last-child assignment is skipped. -/
theorem C9_empty_allocation (n : String) (ac : AssetClass) (asc : AssetSubclass) (t : Target)
    (cs : List Node) (nl : Bool) (d : FolderDisplay) (p : Option LinePerf)
    (cur : Option String) (env : Option Envelope) (b : Bucket) (ta : ℚ)
    (h : b.use_amount ta = []) :
    (process (.shared_folder n ac asc t cs nl d p cur env b ta)).1 =
      .shared_folder n ac asc t [] nl d p cur env b ta := by
  rw [process_shared, h]
  simp [set_last_newline]

/-- Closed witness for C9: a shared folder whose bucket allocates nothing
keeps newline true and ends with no children. -/
theorem C9_empty_allocation_witness :
    Bucket.use_amount ⟨"b", [], fun _ => []⟩ 100 = [] ∧
    (process (.shared_folder "s" .unknown .unknown .tNone [] true .expanded none none none
        ⟨"b", [], fun _ => []⟩ 100)).1 =
      .shared_folder "s" .unknown .unknown .tNone [] true .expanded none none none
        ⟨"b", [], fun _ => []⟩ 100 :=
  ⟨rfl, C9_empty_allocation "s" .unknown .unknown .tNone [] true .expanded none none none
    ⟨"b", [], fun _ => []⟩ 100 rfl⟩

/-- C1 amended: after SharedFolder.process() with a non-empty allocation, the
last allocated child's newline flag is set to the folder's own flag, and the
earlier allocated children keep whatever newline flags they carried out of
the bucket — they are not cleared. -/
theorem C1_newline_last_child (n : String) (ac : AssetClass) (asc : AssetSubclass) (t : Target)
    (cs : List Node) (nl : Bool) (d : FolderDisplay) (p : Option LinePerf)
    (cur : Option String) (env : Option Envelope) (b : Bucket) (ta : ℚ)
    (l : Line) (ls : List Line) (h : b.use_amount ta = l :: ls) :
    (process (.shared_folder n ac asc t cs nl d p cur env b ta)).1 =
      .shared_folder n ac asc t
        (((l :: ls).dropLast.map Node.line) ++
          [Node.line { (l :: ls).getLast (List.cons_ne_nil l ls) with newline := nl }])
        nl d p cur env b ta := by
  rw [process_shared, h, set_last_newline_lines nl (l :: ls) (List.cons_ne_nil l ls)]

/-- Closed witness for C1 amended: a bucket that allocates two lines, the
first of them carrying newline true from the bucket; the processed folder
keeps it and stamps its own flag on the second. -/
theorem C1_newline_last_child_witness :
    Bucket.use_amount ⟨"b", [], fun _ =>
        [⟨"x", .unknown, .unknown, .tNone, true, ⟨0, false⟩, none, none, 0⟩,
         ⟨"y", .unknown, .unknown, .tNone, false, ⟨0, false⟩, none, none, 0⟩]⟩ 50 =
      [⟨"x", .unknown, .unknown, .tNone, true, ⟨0, false⟩, none, none, 0⟩,
       ⟨"y", .unknown, .unknown, .tNone, false, ⟨0, false⟩, none, none, 0⟩] ∧
    (process (.shared_folder "s" .unknown .unknown .tNone [] true .expanded none none none
        ⟨"b", [], fun _ =>
          [⟨"x", .unknown, .unknown, .tNone, true, ⟨0, false⟩, none, none, 0⟩,
           ⟨"y", .unknown, .unknown, .tNone, false, ⟨0, false⟩, none, none, 0⟩]⟩ 50)).1 =
      .shared_folder "s" .unknown .unknown .tNone
        [.line ⟨"x", .unknown, .unknown, .tNone, true, ⟨0, false⟩, none, none, 0⟩,
         .line ⟨"y", .unknown, .unknown, .tNone, true, ⟨0, false⟩, none, none, 0⟩]
        true .expanded none none none
        ⟨"b", [], fun _ =>
          [⟨"x", .unknown, .unknown, .tNone, true, ⟨0, false⟩, none, none, 0⟩,
           ⟨"y", .unknown, .unknown, .tNone, false, ⟨0, false⟩, none, none, 0⟩]⟩ 50 := by
  refine ⟨rfl, ?_⟩
  rw [C1_newline_last_child "s" .unknown .unknown .tNone [] true .expanded none none none
    _ 50 _ _ rfl]
  simp

/-- Counterexample to C1 as stated: with the folder's own newline true and a
bucket allocation whose first line already carries newline true, the first
(non-last) child keeps newline true after process() — it is not cleared to
false as the claim requires. -/
theorem C1_counterexample :
    (node_children (process (.shared_folder "s" .unknown .unknown .tNone [] true .expanded
        none none none
        ⟨"b", [], fun _ =>
          [⟨"x", .unknown, .unknown, .tNone, true, ⟨0, false⟩, none, none, 0⟩,
           ⟨"y", .unknown, .unknown, .tNone, false, ⟨0, false⟩, none, none, 0⟩]⟩ 50)).1).map
      node_newline = [true, true] ∧ ([true, true] : List Bool) ≠ [false, true] := by
  constructor
  · rw [process_shared]
    simp [set_last_newline, set_newline, node_children, node_newline]
  · decide

/-- C6: Folder.process() processes every child in list order (the resulting
children are exactly the processed children), and appends the advisory
ratio-sum warning to the children's accumulated warnings exactly when the
accumulated target_ratio over ratio-kind child targets is neither 0 nor 100;
being a total function of the tree, it never raises and never stops early. -/
theorem C6_ratio_warning_advisory (n : String) (ac : AssetClass) (asc : AssetSubclass)
    (t : Target) (cs : List Node) (nl : Bool) (d : FolderDisplay) (p : Option LinePerf)
    (cur : Option String) (env : Option Envelope) :
    (process (.folder n ac asc t cs nl d p cur env)).1 =
      .folder n ac asc t (cs.map (fun c => (process c).1)) nl d p cur env
    ∧ (process (.folder n ac asc t cs nl d p cur env)).2 =
      (cs.map (fun c => (process c).2)).flatten ++
        (if ((cs.map (fun c => (process c).1)).filterMap child_ratio).sum ≠ 0 ∧
            ((cs.map (fun c => (process c).1)).filterMap child_ratio).sum ≠ 100
         then [ratio_warning n] else []) := by
  rw [process_folder]
  exact ⟨rfl, rfl⟩

theorem get_perf_folder_expand (n : String) (ac : AssetClass) (asc : AssetSubclass) (t : Target)
    (cs : List Node) (nl : Bool) (d : FolderDisplay) (p : Option LinePerf)
    (cur : Option String) (env : Option Envelope) (ideal : Bool) :
    get_perf (.folder n ac asc t cs nl d p cur env) ideal =
      (if (perf_candidates cs).isEmpty ||
          ((perf_candidates cs).map (fun c => get_perf c ideal)).all (fun pf => pf.skip)
       then ⟨0, true⟩
       else ⟨(((if ((perf_candidates cs).map
                    (fun c => if ideal then get_ideal c else get_amount c)).sum = 0
               then ((perf_candidates cs).map
                    (fun c => if ideal then get_ideal c else get_amount c)).map
                 (fun _ => (1 : ℚ) / (perf_candidates cs).length)
               else ((perf_candidates cs).map
                    (fun c => if ideal then get_ideal c else get_amount c)).map
                 (fun e => e / ((perf_candidates cs).map
                    (fun c => if ideal then get_ideal c else get_amount c)).sum)).zip
               ((perf_candidates cs).map (fun c => get_perf c ideal))).map
             (fun wp => wp.1 * wp.2.expected)).sum, false⟩) :=
  get_perf_folder n ac asc t cs nl d p cur env ideal

/-- C4: Folder.get_perf returns the skipped zero performance exactly when the
candidate list (children minus skip-marked lines) is empty or every
candidate's recursively obtained performance is marked skip; in every other
case the result carries skip=false, so the equivalence is exact. -/
theorem C4_skip_iff (n : String) (ac : AssetClass) (asc : AssetSubclass) (t : Target)
    (cs : List Node) (nl : Bool) (d : FolderDisplay) (p : Option LinePerf)
    (cur : Option String) (env : Option Envelope) (ideal : Bool) :
    get_perf (.folder n ac asc t cs nl d p cur env) ideal = ⟨0, true⟩ ↔
      (perf_candidates cs = [] ∨
        ∀ c ∈ perf_candidates cs, (get_perf c ideal).skip = true) := by
  rw [get_perf_folder_expand]
  by_cases h : ((perf_candidates cs).isEmpty ||
      ((perf_candidates cs).map (fun c => get_perf c ideal)).all (fun pf => pf.skip)) = true
  · rw [if_pos h]
    simp only [true_iff]
    rcases Bool.or_eq_true_iff.mp h with h1 | h1
    · exact Or.inl (List.isEmpty_iff.mp h1)
    · refine Or.inr ?_
      intro c hc
      have := List.all_eq_true.mp h1 (get_perf c ideal) (List.mem_map_of_mem _ hc)
      exact this
  · rw [if_neg h]
    constructor
    · intro hcontra
      have : (false : Bool) = true := congrArg LinePerf.skip hcontra
      exact absurd this (by decide)
    · intro hrhs
      exfalso
      apply h
      rcases hrhs with h1 | h1
      · exact Bool.or_eq_true_iff.mpr (Or.inl (List.isEmpty_iff.mpr h1))
      · refine Bool.or_eq_true_iff.mpr (Or.inr ?_)
        refine List.all_eq_true.mpr ?_
        intro pf hpf
        obtain ⟨c, hc, hc2⟩ := List.mem_map.mp hpf
        rw [← hc2]
        exact h1 c hc

/-- C7: Folder.get_currency returns the children's shared currency string
when the folder is non-empty and every child reports that same string, and
the fixed unknown-currency sentinel in every other case — an empty children
list or any divergence between two children. -/
theorem C7_common_or_sentinel (n : String) (ac : AssetClass) (asc : AssetSubclass) (t : Target)
    (cs : List Node) (nl : Bool) (d : FolderDisplay) (p : Option LinePerf)
    (cur : Option String) (env : Option Envelope) :
    (∀ s : String, cs ≠ [] → (∀ x ∈ cs, get_currency x = s) →
        get_currency (.folder n ac asc t cs nl d p cur env) = s)
    ∧ ((cs = [] ∨ ∃ x ∈ cs, ∃ y ∈ cs, get_currency x ≠ get_currency y) →
        get_currency (.folder n ac asc t cs nl d p cur env) = "#") := by
  rw [get_currency_folder]
  constructor
  · intro s hne hall
    cases cs with
    | nil => exact absurd rfl hne
    | cons c rest =>
      simp only [List.map_cons, common_currency]
      have hc : get_currency c = s := hall c (List.mem_cons_self c rest)
      have hcount : (get_currency c :: rest.map get_currency).count (get_currency c) =
          (get_currency c :: rest.map get_currency).length := by
        rw [List.count_eq_length]
        intro b hb
        rcases List.mem_cons.mp hb with h | h
        · rw [h]
        · obtain ⟨x, hx, hxb⟩ := List.mem_map.mp h
          rw [← hxb, hc, hall x (List.mem_cons_of_mem c hx)]
      rw [if_pos hcount, hc]
  · intro hdiv
    cases cs with
    | nil => simp [common_currency]
    | cons c rest =>
      rcases hdiv with h | ⟨x, hx, y, hy, hxy⟩
      · exact absurd h (List.cons_ne_nil c rest)
      · simp only [List.map_cons, common_currency]
        rw [if_neg]
        intro hcount
        rw [List.count_eq_length] at hcount
        have h1 : get_currency c = get_currency x := by
          rcases List.mem_cons.mp hx with hxc | hxr
          · rw [hxc]
          · exact hcount _ (List.mem_cons_of_mem _ (List.mem_map_of_mem get_currency hxr))
        have h2 : get_currency c = get_currency y := by
          rcases List.mem_cons.mp hy with hyc | hyr
          · rw [hyc]
          · exact hcount _ (List.mem_cons_of_mem _ (List.mem_map_of_mem get_currency hyr))
        exact hxy (h1 ▸ h2 ▸ rfl)

/-- Closed witness for C7: two children both reporting USD make the folder
report USD. -/
theorem C7_common_or_sentinel_witness :
    ([Node.line ⟨"a", .unknown, .unknown, .tNone, false, ⟨0, false⟩, some "USD", none, 0⟩,
      Node.line ⟨"b", .unknown, .unknown, .tNone, false, ⟨0, false⟩, some "USD", none, 0⟩] :
      List Node) ≠ [] ∧
    get_currency (.folder "f" .unknown .unknown .tNone
      [Node.line ⟨"a", .unknown, .unknown, .tNone, false, ⟨0, false⟩, some "USD", none, 0⟩,
       Node.line ⟨"b", .unknown, .unknown, .tNone, false, ⟨0, false⟩, some "USD", none, 0⟩]
      false .expanded none none none) = "USD" := by
  refine ⟨by simp, ?_⟩
  refine (C7_common_or_sentinel "f" .unknown .unknown .tNone _ false .expanded
    none none none).1 "USD" (by simp) ?_
  intro x hx
  rcases List.mem_cons.mp hx with h | h
  · rw [h, get_currency_line]; rfl
  · rcases List.mem_cons.mp h with h2 | h2
    · rw [h2, get_currency_line]; rfl
    · cases h2

/-- C5 amended: per-field propagation rules for a child attached through
add_child. asset class and subclass are overwritten only when the child's
value is the UNKNOWN sentinel; the folder's currency overwrites the child's
exactly when the folder supplies one that is non-null AND non-empty (Python
string truthiness — an empty string, though non-null, does not overwrite);
the folder's envelope overwrites whenever non-null (Envelope objects are
always truthy); the folder's perf overwrites only when the child has no
performance set or one with expected == 0. -/
theorem C5_attrib_rules (n : String) (ac : AssetClass) (asc : AssetSubclass) (t : Target)
    (cs : List Node) (nl : Bool) (d : FolderDisplay) (p : Option LinePerf)
    (cur : Option String) (env : Option Envelope) (child : Node) :
    node_children (add_child (.folder n ac asc t cs nl d p cur env) child) =
      cs ++ [set_child_attribs child ac asc p cur env]
    ∧ node_asset_class (set_child_attribs child ac asc p cur env) =
        (if node_asset_class child = .unknown then ac else node_asset_class child)
    ∧ node_asset_subclass (set_child_attribs child ac asc p cur env) =
        (if node_asset_subclass child = .unknown then asc else node_asset_subclass child)
    ∧ node_currency (set_child_attribs child ac asc p cur env) =
        (match cur with
         | some c => if c = "" then node_currency child else some c
         | none => node_currency child)
    ∧ node_envelope (set_child_attribs child ac asc p cur env) =
        (match env with
         | some e => some e
         | none => node_envelope child)
    ∧ node_perf (set_child_attribs child ac asc p cur env) =
        (match p, node_perf child with
         | some q, none => some q
         | some q, some cp => if cp.expected = 0 then some q else some cp
         | none, _ => node_perf child) := by
  refine ⟨by simp [add_child, node_children], ?_, ?_, ?_, ?_, ?_⟩
  all_goals
    cases child with
    | line l =>
      rw [set_child_attribs_line]
      simp only [set_line_attribs, node_asset_class, node_asset_subclass, node_currency,
        node_envelope, node_perf]
      all_goals
        first
        | rfl
        | (cases p with
           | none => rfl
           | some q => by_cases hq : l.perf.expected = 0 <;> simp [hq])
    | folder n' ac' asc' t' cs' nl' d' p' cur' env' =>
      rw [set_child_attribs_folder]
      simp only [node_asset_class, node_asset_subclass, node_currency, node_envelope, node_perf]
      all_goals (cases p <;> cases p' <;> rfl)
    | shared_folder n' ac' asc' t' cs' nl' d' p' cur' env' b' ta' =>
      rw [set_child_attribs_shared]
      simp only [node_asset_class, node_asset_subclass, node_currency, node_envelope, node_perf]
      all_goals (cases p <;> cases p' <;> rfl)

/-- Counterexample to C5 as stated: a folder supplying the non-null currency
some "" (empty string) does not overwrite the child's already-set currency —
Python string truthiness keeps the child's "EUR", while the claim demands
unconditional overwrite for every non-null folder currency. -/
theorem C5_counterexample :
    node_children (add_child
      (.folder "f" .unknown .unknown .tNone [] false .expanded none (some "") none)
      (.line ⟨"x", .unknown, .unknown, .tNone, false, ⟨0, false⟩, some "EUR", none, 0⟩)) =
      [.line ⟨"x", .unknown, .unknown, .tNone, false, ⟨0, false⟩, some "EUR", none, 0⟩]
    ∧ (some "" : Option String) ≠ none
    ∧ (some "EUR" : Option String) ≠ some "" := by
  refine ⟨?_, by simp, by simp⟩
  rw [add_child, set_child_attribs_line]
  simp [set_line_attribs, node_children]

theorem as_line_some {c : Node} {l : Line} (h : as_line c = some l) : c = .line l := by
  cases c with
  | line l' => rw [as_line] at h; exact congrArg Node.line (Option.some.injEq _ _ ▸ h)
  | folder n ac asc t cs nl d p cur env => simp [as_line] at h
  | shared_folder n ac asc t cs nl d p cur env b ta => simp [as_line] at h

/-- Counterexample to C2 as stated: the synthesized Line is appended as a
child before the children scan, so a fetch record whose matching predicate
also matches the synthesized line (here: it matches by the generated name)
collects it a second time — the match list holds the new Line twice, not
exactly once. -/
theorem C2_counterexample :
    (match_lines
      (.folder "f" .unknown .unknown .tNone [] false .expanded none none (some ⟨"Env", "K"⟩))
      ⟨"K", ⟨"g", .unknown, .unknown, .tNone, false, ⟨0, false⟩, none, none, 0⟩,
        fun l => l.name == "g"⟩).2 =
      [⟨"g", .unknown, .unknown, .tNone, false, ⟨0, false⟩, none, some ⟨"Env", "K"⟩, 0⟩,
       ⟨"g", .unknown, .unknown, .tNone, false, ⟨0, false⟩, none, some ⟨"Env", "K"⟩, 0⟩]
    ∧ (match_lines
      (.folder "f" .unknown .unknown .tNone [] false .expanded none none (some ⟨"Env", "K"⟩))
      ⟨"K", ⟨"g", .unknown, .unknown, .tNone, false, ⟨0, false⟩, none, none, 0⟩,
        fun l => l.name == "g"⟩).2.count
        ⟨"g", .unknown, .unknown, .tNone, false, ⟨0, false⟩, none, some ⟨"Env", "K"⟩, 0⟩ = 2
    ∧ (2 : Nat) ≠ 1 := by
  refine ⟨?_, ?_, by decide⟩ <;>
  · rw [match_lines_folder]
    rfl

/-- C2 amended: when the folder's envelope key or name equals the record's
account, exactly one new Line — the synthesized one, after the folder's
attribute push-down — is appended as the folder's last child, and it appears
exactly once in the match list provided the record's matching predicate does
not also match the synthesized line (the counterexample shows it appears
twice otherwise); the folder's children are leaf lines here so that no
recursive descent can synthesize further copies. -/
theorem C2_envelope_generates (n : String) (ac : AssetClass) (asc : AssetSubclass) (t : Target)
    (cs : List Node) (nl : Bool) (d : FolderDisplay) (p : Option LinePerf)
    (cur : Option String) (env : Option Envelope) (fl : FetchLine) (e : Envelope)
    (henv : env = some e)
    (hacc : fl.account = e.key ∨ fl.account = e.name)
    (hlines : ∀ c ∈ cs, (as_line c).isSome = true)
    (hnomatch : fl.matches_line (set_line_attribs fl.generated ac asc p cur env) = false) :
    node_children (match_lines (.folder n ac asc t cs nl d p cur env) fl).1 =
      cs ++ [.line (set_line_attribs fl.generated ac asc p cur env)]
    ∧ (match_lines (.folder n ac asc t cs nl d p cur env) fl).2.count
        (set_line_attribs fl.generated ac asc p cur env) = 1 := by
  subst henv
  have hhit : (fl.account == e.key || fl.account == e.name) = true := by
    rcases hacc with h | h <;> simp [h]
  rw [match_lines_folder]
  simp only [hhit, if_true]
  have hlines0 : ∀ c ∈ cs ++ [Node.line (set_line_attribs fl.generated ac asc p cur (some e))],
      (as_line c).isSome = true := by
    intro c hc
    rcases List.mem_append.mp hc with h | h
    · exact hlines c h
    · rw [List.mem_singleton.mp h, as_line]
      rfl
  constructor
  · rw [node_children]
    rw [List.map_map]
    refine List.map_congr_left ?_ |>.trans (List.map_id _)
    intro c hc
    obtain ⟨l', hl'⟩ := Option.isSome_iff_exists.mp (hlines0 c hc)
    simp [Function.comp, hl']
  · rw [List.count_append]
    have h1 : (List.count (set_line_attribs fl.generated ac asc p cur (some e))
        [set_line_attribs fl.generated ac asc p cur (some e)]) = 1 := by
      simp
    have h2 : (List.count (set_line_attribs fl.generated ac asc p cur (some e))
        (((cs ++ [Node.line (set_line_attribs fl.generated ac asc p cur (some e))]).map (fun c =>
          match as_line c with
          | some l => (c, if fl.matches_line l then [l] else [])
          | none => match_lines c fl)).map (fun r => r.2)).flatten) = 0 := by
      rw [List.count_eq_zero]
      intro hmem
      obtain ⟨s, hs, hgen⟩ := List.mem_flatten.mp hmem
      rw [List.map_map] at hs
      obtain ⟨c, hc, hcs⟩ := List.mem_map.mp hs
      obtain ⟨l', hl'⟩ := Option.isSome_iff_exists.mp (hlines0 c hc)
      rw [← hcs] at hgen
      simp only [Function.comp, hl'] at hgen
      by_cases hm : fl.matches_line l' = true
      · rw [hm] at hgen
        simp only [if_true, List.mem_singleton] at hgen
        subst hgen
        exact absurd hm (by rw [hnomatch]; decide)
      · rw [Bool.of_not_eq_true hm] at hgen
        simp at hgen
    rw [h1, h2]

/-- Closed witness for C2 amended: a folder with one pre-existing line child
and an envelope matched by the record's account; the record's predicate
matches nothing, so the synthesized line is appended once and listed once. -/
theorem C2_envelope_generates_witness :
    (∀ c ∈ [Node.line ⟨"old", .unknown, .unknown, .tNone, false, ⟨0, false⟩, none, none, 0⟩],
      (as_line c).isSome = true)
    ∧ FetchLine.matches_line
        ⟨"K", ⟨"g", .unknown, .unknown, .tNone, false, ⟨0, false⟩, none, none, 0⟩, fun _ => false⟩
        (set_line_attribs ⟨"g", .unknown, .unknown, .tNone, false, ⟨0, false⟩, none, none, 0⟩
          .unknown .unknown none none (some ⟨"Env", "K"⟩)) = false
    ∧ node_children (match_lines
        (.folder "f" .unknown .unknown .tNone
          [Node.line ⟨"old", .unknown, .unknown, .tNone, false, ⟨0, false⟩, none, none, 0⟩]
          false .expanded none none (some ⟨"Env", "K"⟩))
        ⟨"K", ⟨"g", .unknown, .unknown, .tNone, false, ⟨0, false⟩, none, none, 0⟩,
          fun _ => false⟩).1 =
        [Node.line ⟨"old", .unknown, .unknown, .tNone, false, ⟨0, false⟩, none, none, 0⟩] ++
          [.line (set_line_attribs ⟨"g", .unknown, .unknown, .tNone, false, ⟨0, false⟩, none, none, 0⟩
            .unknown .unknown none none (some ⟨"Env", "K"⟩))]
    ∧ (match_lines
        (.folder "f" .unknown .unknown .tNone
          [Node.line ⟨"old", .unknown, .unknown, .tNone, false, ⟨0, false⟩, none, none, 0⟩]
          false .expanded none none (some ⟨"Env", "K"⟩))
        ⟨"K", ⟨"g", .unknown, .unknown, .tNone, false, ⟨0, false⟩, none, none, 0⟩,
          fun _ => false⟩).2.count
        (set_line_attribs ⟨"g", .unknown, .unknown, .tNone, false, ⟨0, false⟩, none, none, 0⟩
          .unknown .unknown none none (some ⟨"Env", "K"⟩)) = 1 := by
  have hlines : ∀ c ∈ [Node.line ⟨"old", .unknown, .unknown, .tNone, false, ⟨0, false⟩,
      none, none, 0⟩], (as_line c).isSome = true := by
    intro c hc
    rw [List.mem_singleton.mp hc]
    rfl
  have h := C2_envelope_generates "f" .unknown .unknown .tNone
    [Node.line ⟨"old", .unknown, .unknown, .tNone, false, ⟨0, false⟩, none, none, 0⟩]
    false .expanded none none (some ⟨"Env", "K"⟩)
    ⟨"K", ⟨"g", .unknown, .unknown, .tNone, false, ⟨0, false⟩, none, none, 0⟩, fun _ => false⟩
    ⟨"Env", "K"⟩ rfl (Or.inl rfl) hlines rfl
  exact ⟨hlines, rfl, h.1, h.2⟩

/-- C3: with a non-empty candidate list not entirely skipped, Folder.get_perf
returns skip=false and the weighted sum of the candidates' expected
performances, each candidate weighted by its ideal amount (current amount
when ideal=false) over the total of those bases, or by the equal weight 1/n
when the total is zero. -/
theorem C3_weighted_mean (n : String) (ac : AssetClass) (asc : AssetSubclass) (t : Target)
    (cs : List Node) (nl : Bool) (d : FolderDisplay) (p : Option LinePerf)
    (cur : Option String) (env : Option Envelope) (ideal : Bool)
    (hne : perf_candidates cs ≠ [])
    (hsk : ¬ ∀ c ∈ perf_candidates cs, (get_perf c ideal).skip = true) :
    get_perf (.folder n ac asc t cs nl d p cur env) ideal =
      ⟨((perf_candidates cs).map (fun c =>
          (if ((perf_candidates cs).map
                (fun x => if ideal then get_ideal x else get_amount x)).sum = 0
           then (1 : ℚ) / (perf_candidates cs).length
           else (if ideal then get_ideal c else get_amount c) /
             ((perf_candidates cs).map
                (fun x => if ideal then get_ideal x else get_amount x)).sum)
          * (get_perf c ideal).expected)).sum, false⟩ := by
  rw [get_perf_folder_expand]
  have hcond : ((perf_candidates cs).isEmpty ||
      ((perf_candidates cs).map (fun c => get_perf c ideal)).all (fun pf => pf.skip)) = false := by
    rw [Bool.or_eq_false_iff]
    constructor
    · rw [List.isEmpty_eq_false]
      exact hne
    · rw [Bool.eq_false_iff]
      intro hall
      apply hsk
      intro c hc
      exact List.all_eq_true.mp hall (get_perf c ideal) (List.mem_map_of_mem _ hc)
  rw [if_neg (by rw [hcond]; decide)]
  by_cases htot : ((perf_candidates cs).map
      (fun x => if ideal then get_ideal x else get_amount x)).sum = 0
  · simp only [if_pos htot, List.map_map, List.zip_map']
    rfl
  · simp only [if_neg htot, List.map_map, List.zip_map']
    rfl

/-- Closed witness for C3, the spec's own example: two children with equal
ideal amounts and expected performances 0.05 and 0.15 give the folder an
expected performance of 0.10. -/
theorem C3_weighted_mean_witness :
    perf_candidates
      [Node.line ⟨"a", .unknown, .unknown, .tOther 100, false, ⟨1/20, false⟩, none, none, 0⟩,
       Node.line ⟨"b", .unknown, .unknown, .tOther 100, false, ⟨3/20, false⟩, none, none, 0⟩] ≠ []
    ∧ ¬ (∀ c ∈ perf_candidates
      [Node.line ⟨"a", .unknown, .unknown, .tOther 100, false, ⟨1/20, false⟩, none, none, 0⟩,
       Node.line ⟨"b", .unknown, .unknown, .tOther 100, false, ⟨3/20, false⟩, none, none, 0⟩],
        (get_perf c true).skip = true)
    ∧ get_perf (.folder "f" .unknown .unknown .tNone
      [Node.line ⟨"a", .unknown, .unknown, .tOther 100, false, ⟨1/20, false⟩, none, none, 0⟩,
       Node.line ⟨"b", .unknown, .unknown, .tOther 100, false, ⟨3/20, false⟩, none, none, 0⟩]
      false .expanded none none none) true = ⟨1/10, false⟩ := by
  have hne : perf_candidates
      [Node.line ⟨"a", .unknown, .unknown, .tOther 100, false, ⟨1/20, false⟩, none, none, 0⟩,
       Node.line ⟨"b", .unknown, .unknown, .tOther 100, false, ⟨3/20, false⟩, none, none, 0⟩] ≠
      [] := by
    simp [perf_candidates]
  have hsk : ¬ (∀ c ∈ perf_candidates
      [Node.line ⟨"a", .unknown, .unknown, .tOther 100, false, ⟨1/20, false⟩, none, none, 0⟩,
       Node.line ⟨"b", .unknown, .unknown, .tOther 100, false, ⟨3/20, false⟩, none, none, 0⟩],
        (get_perf c true).skip = true) := by
    intro hall
    have h2 := hall
      (.line ⟨"a", .unknown, .unknown, .tOther 100, false, ⟨1/20, false⟩, none, none, 0⟩)
      (by simp [perf_candidates])
    rw [get_perf_line] at h2
    exact absurd h2 (by decide)
  refine ⟨hne, hsk, ?_⟩
  rw [C3_weighted_mean "f" .unknown .unknown .tNone _ false .expanded none none none true
    hne hsk]
  simp [perf_candidates, get_ideal_line, get_perf_line, Line.get_ideal, Line.get_perf,
    Target.get_ideal]
  norm_num

theorem target_round_trip (t : Target) : Target.from_dict (Target.to_dict t) = some t := by
  cases t <;> rfl

theorem FolderDisplay.of_value_round_trip (d : FolderDisplay) :
    FolderDisplay.of_value (.n d.value) = some d := by
  cases d <;> rfl

theorem DVal.truthy_b (b : Bool) : DVal.truthy (.b b) = b := rfl

theorem line_round_trip (l : Line) (es : List (String × Envelope)) :
    Line.from_dict (Line.to_dict l) es =
      some ⟨l.name, .unknown, .unknown, l.target, l.newline, ⟨0, false⟩, none, none, 0⟩ := by
  have h1 : Line.from_dict (Line.to_dict l) es =
      (match Target.from_dict (Target.to_dict l.target) with
       | some t => some ⟨l.name, .unknown, .unknown, t, (DVal.b l.newline).truthy,
           ⟨0, false⟩, none, none, 0⟩
       | none => none) := rfl
  rw [h1, target_round_trip]
  rfl

theorem set_child_attribs_id : ∀ c : Node,
    set_child_attribs c .unknown .unknown none none none = c := by
  intro c
  induction c using node_induction with
  | hl l =>
    rw [set_child_attribs_line]
    have ha : (if l.asset_class = AssetClass.unknown then AssetClass.unknown
        else l.asset_class) = l.asset_class := by
      by_cases h : l.asset_class = AssetClass.unknown <;> simp [h]
    have hb : (if l.asset_subclass = AssetSubclass.unknown then AssetSubclass.unknown
        else l.asset_subclass) = l.asset_subclass := by
      by_cases h : l.asset_subclass = AssetSubclass.unknown <;> simp [h]
    rw [set_line_attribs, ha, hb]
  | hf n ac asc t cs nl d p cur env ih =>
    rw [set_child_attribs_folder]
    have hcs : cs.map (fun c => set_child_attribs c .unknown .unknown none none none) = cs :=
      (List.map_congr_left (fun c hc => ih c hc)).trans (List.map_id cs)
    have ha : (if ac = AssetClass.unknown then AssetClass.unknown else ac) = ac := by
      by_cases h : ac = AssetClass.unknown <;> simp [h]
    have hb : (if asc = AssetSubclass.unknown then AssetSubclass.unknown else asc) = asc := by
      by_cases h : asc = AssetSubclass.unknown <;> simp [h]
    rw [hcs, ha, hb]
  | hs n ac asc t cs nl d p cur env b ta ih =>
    rw [set_child_attribs_shared]
    have hcs : cs.map (fun c => set_child_attribs c .unknown .unknown none none none) = cs :=
      (List.map_congr_left (fun c hc => ih c hc)).trans (List.map_id cs)
    have ha : (if ac = AssetClass.unknown then AssetClass.unknown else ac) = ac := by
      by_cases h : ac = AssetClass.unknown <;> simp [h]
    have hb : (if asc = AssetSubclass.unknown then AssetSubclass.unknown else asc) = asc := by
      by_cases h : asc = AssetSubclass.unknown <;> simp [h]
    rw [hcs, ha, hb]

theorem preserved_children_refl_of (cs : List Node)
    (h : ∀ c ∈ cs, preserved_eq c c = true) : preserved_children cs cs = true := by
  induction cs with
  | nil => rw [preserved_children]
  | cons c rest ih =>
    rw [preserved_children]
    rw [h c (List.mem_cons_self c rest), ih (fun x hx => h x (List.mem_cons_of_mem c hx))]
    rfl

theorem preserved_eq_refl : ∀ c : Node, preserved_eq c c = true := by
  intro c
  induction c using node_induction with
  | hl l => rw [preserved_eq]; simp
  | hf n ac asc t cs nl d p cur env ih =>
    rw [preserved_eq, preserved_children_refl_of cs ih]
    simp
  | hs n ac asc t cs nl d p cur env b ta ih =>
    rw [preserved_eq, preserved_children_refl_of cs ih]
    simp

theorem parse_child_line_eq (d : DVal) (bs : List (String × Bucket))
    (es : List (String × Envelope)) (h : child_type d = some (.s "line")) :
    parse_child d bs es = (match Line.from_dict d es with
      | some l => some (some (.line l))
      | none => none) := by
  rw [parse_child, h]
  rfl

theorem parse_child_folder_eq (d : DVal) (bs : List (String × Bucket))
    (es : List (String × Envelope)) (h : child_type d = some (.s "folder")) :
    parse_child d bs es = (match Folder.from_dict d bs es with
      | some nd => some (some nd)
      | none => none) := by
  rw [parse_child, h]
  rfl

theorem parse_child_shared_eq (d : DVal) (bs : List (String × Bucket))
    (es : List (String × Envelope)) (h : child_type d = some (.s "shared_folder")) :
    parse_child d bs es = (match SharedFolder.from_dict d bs with
      | some nd => some (some nd)
      | none => none) := by
  rw [parse_child, h]
  rfl

theorem parse_children_nil (bs : List (String × Bucket)) (es : List (String × Envelope)) :
    parse_children [] bs es = some [] := by
  rw [parse_children]

theorem parse_children_cons (d : DVal) (ds : List DVal) (bs : List (String × Bucket))
    (es : List (String × Envelope)) :
    parse_children (d :: ds) bs es =
      (match parse_child d bs es, parse_children ds bs es with
       | some (some nd), some ns => some (nd :: ns)
       | some none, some ns => some ns
       | _, _ => none) := by
  rw [parse_children]

theorem folder_from_dict_to_dict (n : String) (ac : AssetClass) (asc : AssetSubclass)
    (t : Target) (cs : List Node) (nl : Bool) (d : FolderDisplay) (p : Option LinePerf)
    (cur : Option String) (env : Option Envelope) (bs : List (String × Bucket))
    (es : List (String × Envelope)) :
    Folder.from_dict (to_dict (.folder n ac asc t cs nl d p cur env)) bs es =
      (match parse_children (cs.map to_dict) bs es with
       | some children => some (mk_folder n .unknown .unknown t children nl d none none none)
       | none => none) := by
  have step : Folder.from_dict (to_dict (.folder n ac asc t cs nl d p cur env)) bs es =
      (match parse_children (cs.map to_dict) bs es with
       | some children =>
         (match Target.from_dict (Target.to_dict t), FolderDisplay.of_value (.n d.value) with
          | some t', some disp =>
            some (mk_folder n .unknown .unknown t' children ((DVal.b nl).truthy) disp
              none none none)
          | _, _ => none)
       | none => none) := by
    rw [to_dict_folder, Folder.from_dict]
    rfl
  rw [step, target_round_trip, FolderDisplay.of_value_round_trip]
  rfl

theorem to_dict_shared (n : String) (ac : AssetClass) (asc : AssetSubclass) (t : Target)
    (cs : List Node) (nl : Bool) (d : FolderDisplay) (p : Option LinePerf)
    (cur : Option String) (env : Option Envelope) (b : Bucket) (ta : ℚ) :
    to_dict (.shared_folder n ac asc t cs nl d p cur env b ta) =
      .dict [("type", .s "shared_folder"), ("name", .s n), ("bucket_name", .s b.name),
             ("target_amount", .n ta), ("target", t.to_dict), ("newline", .b nl),
             ("display", .n d.value)] := by
  rw [to_dict]

theorem shared_from_dict_to_dict (n : String) (ac : AssetClass) (asc : AssetSubclass)
    (t : Target) (cs : List Node) (nl : Bool) (d : FolderDisplay) (p : Option LinePerf)
    (cur : Option String) (env : Option Envelope) (b : Bucket) (ta : ℚ)
    (bs : List (String × Bucket)) (hb : bs.lookup b.name = some b) :
    SharedFolder.from_dict (to_dict (.shared_folder n ac asc t cs nl d p cur env b ta)) bs =
      some (mk_shared_folder n .unknown .unknown ta t nl d b) := by
  have step : SharedFolder.from_dict
      (to_dict (.shared_folder n ac asc t cs nl d p cur env b ta)) bs =
      (match bs.lookup b.name, Target.from_dict (Target.to_dict t),
             FolderDisplay.of_value (.n d.value) with
       | some b', some t', some disp =>
         some (mk_shared_folder n .unknown .unknown ta t' ((DVal.b nl).truthy) disp b')
       | _, _, _ => none) := by
    rw [to_dict_shared, SharedFolder.from_dict]
    rfl
  rw [step, hb, target_round_trip, FolderDisplay.of_value_round_trip]
  rfl

theorem parse_children_round_trip (bs : List (String × Bucket)) (es : List (String × Envelope))
    (cs : List Node)
    (h : ∀ c ∈ cs, ∃ g, parse_child (to_dict c) bs es = some (some g) ∧
      preserved_eq c g = true) :
    ∃ gs, parse_children (cs.map to_dict) bs es = some gs ∧
      preserved_children cs gs = true := by
  induction cs with
  | nil => exact ⟨[], parse_children_nil bs es, by rw [preserved_children]⟩
  | cons c rest ih =>
    obtain ⟨g, hg1, hg2⟩ := h c (List.mem_cons_self c rest)
    obtain ⟨gs, hgs1, hgs2⟩ := ih (fun x hx => h x (List.mem_cons_of_mem c hx))
    refine ⟨g :: gs, ?_, ?_⟩
    · rw [List.map_cons, parse_children_cons, hg1, hgs1]
    · rw [preserved_children, hg2, hgs2]
      rfl

theorem parse_child_round_trip (bs : List (String × Bucket)) (es : List (String × Envelope)) :
    ∀ nd, shared_ok bs nd →
      ∃ g, parse_child (to_dict nd) bs es = some (some g) ∧ preserved_eq nd g = true := by
  intro nd
  induction nd using node_induction with
  | hl l =>
    intro _
    refine ⟨.line ⟨l.name, .unknown, .unknown, l.target, l.newline, ⟨0, false⟩,
      none, none, 0⟩, ?_, ?_⟩
    · rw [parse_child_line_eq _ _ _ (by rw [to_dict_line]; rfl), to_dict_line, line_round_trip]
    · rw [preserved_eq]
      simp
  | hf n ac asc t cs nl d p cur env ih =>
    intro hok
    rw [shared_ok] at hok
    obtain ⟨gs, hgs1, hgs2⟩ := parse_children_round_trip bs es cs
      (fun c hc => ih c hc (hok c hc))
    refine ⟨mk_folder n .unknown .unknown t gs nl d none none none, ?_, ?_⟩
    · rw [parse_child_folder_eq _ _ _ (by rw [to_dict_folder]; rfl),
        folder_from_dict_to_dict, hgs1]
    · have hid : gs.map (fun c => set_child_attribs c .unknown .unknown none none none) = gs :=
        (List.map_congr_left (fun c _ => set_child_attribs_id c)).trans (List.map_id gs)
      rw [mk_folder, hid, preserved_eq, hgs2]
      simp
  | hs n ac asc t cs nl d p cur env b ta ih =>
    intro hok
    rw [shared_ok] at hok
    obtain ⟨hcs, hb, hrec⟩ := hok
    refine ⟨mk_shared_folder n .unknown .unknown ta t nl d b, ?_, ?_⟩
    · rw [parse_child_shared_eq _ _ _ (by rw [to_dict_shared]; rfl),
        shared_from_dict_to_dict n ac asc t cs nl d p cur env b ta bs hb]
    · have hid : (b.lines.map Node.line).map
          (fun c => set_child_attribs c .unknown .unknown none none none) =
          b.lines.map Node.line :=
        (List.map_congr_left (fun c _ => set_child_attribs_id c)).trans
          (List.map_id (b.lines.map Node.line))
      rw [mk_shared_folder, hid, ← hcs, preserved_eq,
        preserved_children_refl_of cs (fun c _ => preserved_eq_refl c)]
      simp

/-- C8 amended: for a tree whose shared folders are in construction state
(every shared folder still holds exactly its bucket's lines as children, the
state SharedFolder.__init__ establishes) and whose referenced bucket names
all resolve in the registry to their buckets, serialising and deserialising
succeeds and reconstructs a tree that is variant-for-variant identical with
the same name, newline, target and display at every node; the tree contains
at least one line, one folder and one shared folder as the claim demands.
The construction-state restriction is forced by the counterexample: a shared
folder's children are not serialised and come back as the registry bucket's
lines. -/
theorem C8_round_trip (n : String) (ac : AssetClass) (asc : AssetSubclass) (t : Target)
    (cs : List Node) (nl : Bool) (d : FolderDisplay) (p : Option LinePerf)
    (cur : Option String) (env : Option Envelope) (bs : List (String × Bucket))
    (es : List (String × Envelope))
    (hok : shared_ok bs (.folder n ac asc t cs nl d p cur env))
    (hvar : contains_line (.folder n ac asc t cs nl d p cur env) = true ∧
            contains_folder (.folder n ac asc t cs nl d p cur env) = true ∧
            contains_shared_folder (.folder n ac asc t cs nl d p cur env) = true) :
    ∃ g, Folder.from_dict (to_dict (.folder n ac asc t cs nl d p cur env)) bs es = some g ∧
      preserved_eq (.folder n ac asc t cs nl d p cur env) g = true := by
  obtain ⟨g, hg1, hg2⟩ :=
    parse_child_round_trip bs es (.folder n ac asc t cs nl d p cur env) hok
  rw [parse_child_folder_eq _ _ _ (by rw [to_dict_folder]; rfl)] at hg1
  cases hf : Folder.from_dict (to_dict (.folder n ac asc t cs nl d p cur env)) bs es with
  | none =>
    rw [hf] at hg1
    exact absurd hg1 (by simp)
  | some nd =>
    rw [hf] at hg1
    simp only [Option.some.injEq] at hg1
    refine ⟨nd, rfl, ?_⟩
    rw [hg1]
    exact hg2

/-- C10: Folder.to_dict emits exactly the keys type, name, target, children,
newline, display — the folder's own asset class, subclass, perf, currency and
envelope are never serialised — so any successful from_dict of that dict
yields a folder whose own attribute fields are the construction defaults,
whatever the original folder's were. -/
theorem C10_own_attribs_dropped (n : String) (ac : AssetClass) (asc : AssetSubclass)
    (t : Target) (cs : List Node) (nl : Bool) (d : FolderDisplay) (p : Option LinePerf)
    (cur : Option String) (env : Option Envelope) (bs : List (String × Bucket))
    (es : List (String × Envelope)) :
    dval_keys (to_dict (.folder n ac asc t cs nl d p cur env)) =
      ["type", "name", "target", "children", "newline", "display"]
    ∧ ∀ g, Folder.from_dict (to_dict (.folder n ac asc t cs nl d p cur env)) bs es = some g →
        node_asset_class g = .unknown ∧ node_asset_subclass g = .unknown ∧
        node_perf g = none ∧ node_currency g = none ∧ node_envelope g = none := by
  constructor
  · rw [to_dict_folder, dval_keys]
    rfl
  · intro g hg
    rw [folder_from_dict_to_dict] at hg
    cases hp : parse_children (cs.map to_dict) bs es with
    | none =>
      rw [hp] at hg
      exact absurd hg (by simp)
    | some children =>
      rw [hp] at hg
      simp only [Option.some.injEq] at hg
      rw [← hg, mk_folder]
      exact ⟨rfl, rfl, rfl, rfl, rfl⟩

/-- Closed witness for C10: a folder with every own attribute field set comes
back from the round trip with UNKNOWN classes and unset perf, currency and
envelope. -/
theorem C10_own_attribs_dropped_witness :
    Folder.from_dict (to_dict (.folder "f" (.known "stocks") (.known "etf") (.tOther 7) []
        true .collapsed (some ⟨3, false⟩) (some "USD") (some ⟨"E", "K"⟩))) [] [] =
      some (.folder "f" .unknown .unknown (.tOther 7) [] true .collapsed none none none)
    ∧ node_asset_class (.folder "f" .unknown .unknown (.tOther 7) [] true .collapsed
        none none none) = .unknown
    ∧ node_asset_subclass (.folder "f" .unknown .unknown (.tOther 7) [] true .collapsed
        none none none) = .unknown
    ∧ node_perf (.folder "f" .unknown .unknown (.tOther 7) [] true .collapsed
        none none none) = none
    ∧ node_currency (.folder "f" .unknown .unknown (.tOther 7) [] true .collapsed
        none none none) = none
    ∧ node_envelope (.folder "f" .unknown .unknown (.tOther 7) [] true .collapsed
        none none none) = none := by
  have hG : Folder.from_dict (to_dict (.folder "f" (.known "stocks") (.known "etf")
      (.tOther 7) [] true .collapsed (some ⟨3, false⟩) (some "USD") (some ⟨"E", "K"⟩))) [] [] =
      some (.folder "f" .unknown .unknown (.tOther 7) [] true .collapsed none none none) := by
    rw [folder_from_dict_to_dict]
    rw [List.map_nil, parse_children_nil]
    rfl
  have h2 := (C10_own_attribs_dropped "f" (.known "stocks") (.known "etf") (.tOther 7) []
    true .collapsed (some ⟨3, false⟩) (some "USD") (some ⟨"E", "K"⟩) [] []).2
    (.folder "f" .unknown .unknown (.tOther 7) [] true .collapsed none none none) hG
  exact ⟨hG, h2.1, h2.2.1, h2.2.2.1, h2.2.2.2.1, h2.2.2.2.2⟩

/-- Closed witness for C8: a root folder holding a line, a collapsed inner
folder and a shared folder whose bucket resolves in the registry; the
round trip succeeds and preserves the tree. -/
theorem C8_round_trip_witness :
    shared_ok [("buck", ⟨"buck", [⟨"l3", .unknown, .unknown, .tNone, false, ⟨0, false⟩,
        none, none, 0⟩], fun _ => []⟩)]
      (.folder "root" .unknown .unknown .tNone
        [.line ⟨"l1", .unknown, .unknown, .tNone, false, ⟨0, false⟩, none, none, 0⟩,
         .folder "inner" .unknown .unknown (.tRatio 50 10) [] true .collapsed none none none,
         .shared_folder "sh" .unknown .unknown .tNone
           [.line ⟨"l3", .unknown, .unknown, .tNone, false, ⟨0, false⟩, none, none, 0⟩]
           true .line none none none
           ⟨"buck", [⟨"l3", .unknown, .unknown, .tNone, false, ⟨0, false⟩, none, none, 0⟩],
             fun _ => []⟩ 42]
        false .expanded none none none)
    ∧ ∃ g, Folder.from_dict (to_dict (.folder "root" .unknown .unknown .tNone
        [.line ⟨"l1", .unknown, .unknown, .tNone, false, ⟨0, false⟩, none, none, 0⟩,
         .folder "inner" .unknown .unknown (.tRatio 50 10) [] true .collapsed none none none,
         .shared_folder "sh" .unknown .unknown .tNone
           [.line ⟨"l3", .unknown, .unknown, .tNone, false, ⟨0, false⟩, none, none, 0⟩]
           true .line none none none
           ⟨"buck", [⟨"l3", .unknown, .unknown, .tNone, false, ⟨0, false⟩, none, none, 0⟩],
             fun _ => []⟩ 42]
        false .expanded none none none))
        [("buck", ⟨"buck", [⟨"l3", .unknown, .unknown, .tNone, false, ⟨0, false⟩,
          none, none, 0⟩], fun _ => []⟩)] [] = some g ∧
      preserved_eq (.folder "root" .unknown .unknown .tNone
        [.line ⟨"l1", .unknown, .unknown, .tNone, false, ⟨0, false⟩, none, none, 0⟩,
         .folder "inner" .unknown .unknown (.tRatio 50 10) [] true .collapsed none none none,
         .shared_folder "sh" .unknown .unknown .tNone
           [.line ⟨"l3", .unknown, .unknown, .tNone, false, ⟨0, false⟩, none, none, 0⟩]
           true .line none none none
           ⟨"buck", [⟨"l3", .unknown, .unknown, .tNone, false, ⟨0, false⟩, none, none, 0⟩],
             fun _ => []⟩ 42]
        false .expanded none none none) g = true := by
  have hok : shared_ok [("buck", ⟨"buck", [⟨"l3", .unknown, .unknown, .tNone, false,
      ⟨0, false⟩, none, none, 0⟩], fun _ => []⟩)]
      (.folder "root" .unknown .unknown .tNone
        [.line ⟨"l1", .unknown, .unknown, .tNone, false, ⟨0, false⟩, none, none, 0⟩,
         .folder "inner" .unknown .unknown (.tRatio 50 10) [] true .collapsed none none none,
         .shared_folder "sh" .unknown .unknown .tNone
           [.line ⟨"l3", .unknown, .unknown, .tNone, false, ⟨0, false⟩, none, none, 0⟩]
           true .line none none none
           ⟨"buck", [⟨"l3", .unknown, .unknown, .tNone, false, ⟨0, false⟩, none, none, 0⟩],
             fun _ => []⟩ 42]
        false .expanded none none none) := by
    rw [shared_ok]
    intro c hc
    rcases List.mem_cons.mp hc with h | h
    · subst h
      rw [shared_ok]
      trivial
    rcases List.mem_cons.mp h with h2 | h2
    · subst h2
      rw [shared_ok]
      intro c hc
      cases hc
    rcases List.mem_cons.mp h2 with h3 | h3
    · subst h3
      rw [shared_ok]
      refine ⟨rfl, rfl, ?_⟩
      intro c hc
      rw [List.mem_singleton.mp hc, shared_ok]
      trivial
    · cases h3
  have hvar : contains_line (.folder "root" .unknown .unknown .tNone
        [.line ⟨"l1", .unknown, .unknown, .tNone, false, ⟨0, false⟩, none, none, 0⟩,
         .folder "inner" .unknown .unknown (.tRatio 50 10) [] true .collapsed none none none,
         .shared_folder "sh" .unknown .unknown .tNone
           [.line ⟨"l3", .unknown, .unknown, .tNone, false, ⟨0, false⟩, none, none, 0⟩]
           true .line none none none
           ⟨"buck", [⟨"l3", .unknown, .unknown, .tNone, false, ⟨0, false⟩, none, none, 0⟩],
             fun _ => []⟩ 42]
        false .expanded none none none) = true ∧
      contains_folder (.folder "root" .unknown .unknown .tNone
        [.line ⟨"l1", .unknown, .unknown, .tNone, false, ⟨0, false⟩, none, none, 0⟩,
         .folder "inner" .unknown .unknown (.tRatio 50 10) [] true .collapsed none none none,
         .shared_folder "sh" .unknown .unknown .tNone
           [.line ⟨"l3", .unknown, .unknown, .tNone, false, ⟨0, false⟩, none, none, 0⟩]
           true .line none none none
           ⟨"buck", [⟨"l3", .unknown, .unknown, .tNone, false, ⟨0, false⟩, none, none, 0⟩],
             fun _ => []⟩ 42]
        false .expanded none none none) = true ∧
      contains_shared_folder (.folder "root" .unknown .unknown .tNone
        [.line ⟨"l1", .unknown, .unknown, .tNone, false, ⟨0, false⟩, none, none, 0⟩,
         .folder "inner" .unknown .unknown (.tRatio 50 10) [] true .collapsed none none none,
         .shared_folder "sh" .unknown .unknown .tNone
           [.line ⟨"l3", .unknown, .unknown, .tNone, false, ⟨0, false⟩, none, none, 0⟩]
           true .line none none none
           ⟨"buck", [⟨"l3", .unknown, .unknown, .tNone, false, ⟨0, false⟩, none, none, 0⟩],
             fun _ => []⟩ 42]
        false .expanded none none none) = true := by
    refine ⟨?_, ?_, ?_⟩
    · rw [contains_line]
      simp [List.attach, List.attachWith, List.pmap, contains_line]
    · rw [contains_folder]
    · rw [contains_shared_folder]
      simp [List.attach, List.attachWith, List.pmap, contains_shared_folder]
  exact ⟨hok, C8_round_trip "root" .unknown .unknown .tNone _ false .expanded none none none
    _ _ hok hvar⟩

/-- Counterexample to C8 as stated: a tree containing a line, a folder and a
shared folder child, with the registry resolving the only referenced bucket
name, whose shared folder currently holds no children (the state after a
processing pass with an empty allocation) while its bucket pools one line.
SharedFolder.to_dict serialises no children and from_dict rebuilds them from
the registry bucket's lines, so the round trip yields a shared folder with
one child where the original had none — the reconstructed children are not
recursively identical. -/
theorem C8_counterexample :
    List.lookup "buck" [("buck", (⟨"buck",
        [⟨"l3", .unknown, .unknown, .tNone, false, ⟨0, false⟩, none, none, 0⟩],
        fun _ => []⟩ : Bucket))] =
      some ⟨"buck", [⟨"l3", .unknown, .unknown, .tNone, false, ⟨0, false⟩, none, none, 0⟩],
        fun _ => []⟩
    ∧ contains_line (.folder "root" .unknown .unknown .tNone
        [.line ⟨"l1", .unknown, .unknown, .tNone, false, ⟨0, false⟩, none, none, 0⟩,
         .folder "inner" .unknown .unknown (.tRatio 50 10) [] true .collapsed none none none,
         .shared_folder "sh" .unknown .unknown .tNone [] true .line none none none
           ⟨"buck", [⟨"l3", .unknown, .unknown, .tNone, false, ⟨0, false⟩, none, none, 0⟩],
             fun _ => []⟩ 42]
        false .expanded none none none) = true
    ∧ contains_folder (.folder "root" .unknown .unknown .tNone
        [.line ⟨"l1", .unknown, .unknown, .tNone, false, ⟨0, false⟩, none, none, 0⟩,
         .folder "inner" .unknown .unknown (.tRatio 50 10) [] true .collapsed none none none,
         .shared_folder "sh" .unknown .unknown .tNone [] true .line none none none
           ⟨"buck", [⟨"l3", .unknown, .unknown, .tNone, false, ⟨0, false⟩, none, none, 0⟩],
             fun _ => []⟩ 42]
        false .expanded none none none) = true
    ∧ contains_shared_folder (.folder "root" .unknown .unknown .tNone
        [.line ⟨"l1", .unknown, .unknown, .tNone, false, ⟨0, false⟩, none, none, 0⟩,
         .folder "inner" .unknown .unknown (.tRatio 50 10) [] true .collapsed none none none,
         .shared_folder "sh" .unknown .unknown .tNone [] true .line none none none
           ⟨"buck", [⟨"l3", .unknown, .unknown, .tNone, false, ⟨0, false⟩, none, none, 0⟩],
             fun _ => []⟩ 42]
        false .expanded none none none) = true
    ∧ Folder.from_dict (to_dict (.folder "root" .unknown .unknown .tNone
        [.line ⟨"l1", .unknown, .unknown, .tNone, false, ⟨0, false⟩, none, none, 0⟩,
         .folder "inner" .unknown .unknown (.tRatio 50 10) [] true .collapsed none none none,
         .shared_folder "sh" .unknown .unknown .tNone [] true .line none none none
           ⟨"buck", [⟨"l3", .unknown, .unknown, .tNone, false, ⟨0, false⟩, none, none, 0⟩],
             fun _ => []⟩ 42]
        false .expanded none none none))
        [("buck", ⟨"buck", [⟨"l3", .unknown, .unknown, .tNone, false, ⟨0, false⟩,
          none, none, 0⟩], fun _ => []⟩)] [] =
      some (.folder "root" .unknown .unknown .tNone
        [.line ⟨"l1", .unknown, .unknown, .tNone, false, ⟨0, false⟩, none, none, 0⟩,
         .folder "inner" .unknown .unknown (.tRatio 50 10) [] true .collapsed none none none,
         .shared_folder "sh" .unknown .unknown .tNone
           [.line ⟨"l3", .unknown, .unknown, .tNone, false, ⟨0, false⟩, none, none, 0⟩]
           true .line none none none
           ⟨"buck", [⟨"l3", .unknown, .unknown, .tNone, false, ⟨0, false⟩, none, none, 0⟩],
             fun _ => []⟩ 42]
        false .expanded none none none)
    ∧ node_children (.shared_folder "sh" .unknown .unknown .tNone [] true .line
        none none none
        ⟨"buck", [⟨"l3", .unknown, .unknown, .tNone, false, ⟨0, false⟩, none, none, 0⟩],
          fun _ => []⟩ 42) = []
    ∧ node_children (.shared_folder "sh" .unknown .unknown .tNone
        [.line ⟨"l3", .unknown, .unknown, .tNone, false, ⟨0, false⟩, none, none, 0⟩]
        true .line none none none
        ⟨"buck", [⟨"l3", .unknown, .unknown, .tNone, false, ⟨0, false⟩, none, none, 0⟩],
          fun _ => []⟩ 42) =
      [.line ⟨"l3", .unknown, .unknown, .tNone, false, ⟨0, false⟩, none, none, 0⟩]
    ∧ preserved_eq (.folder "root" .unknown .unknown .tNone
        [.line ⟨"l1", .unknown, .unknown, .tNone, false, ⟨0, false⟩, none, none, 0⟩,
         .folder "inner" .unknown .unknown (.tRatio 50 10) [] true .collapsed none none none,
         .shared_folder "sh" .unknown .unknown .tNone [] true .line none none none
           ⟨"buck", [⟨"l3", .unknown, .unknown, .tNone, false, ⟨0, false⟩, none, none, 0⟩],
             fun _ => []⟩ 42]
        false .expanded none none none)
      (.folder "root" .unknown .unknown .tNone
        [.line ⟨"l1", .unknown, .unknown, .tNone, false, ⟨0, false⟩, none, none, 0⟩,
         .folder "inner" .unknown .unknown (.tRatio 50 10) [] true .collapsed none none none,
         .shared_folder "sh" .unknown .unknown .tNone
           [.line ⟨"l3", .unknown, .unknown, .tNone, false, ⟨0, false⟩, none, none, 0⟩]
           true .line none none none
           ⟨"buck", [⟨"l3", .unknown, .unknown, .tNone, false, ⟨0, false⟩, none, none, 0⟩],
             fun _ => []⟩ 42]
        false .expanded none none none) = false := by
  refine ⟨rfl, ?_, ?_, ?_, ?_, rfl, rfl, ?_⟩
  · rw [contains_line]
    simp [List.attach, List.attachWith, List.pmap, contains_line]
  · rw [contains_folder]
  · rw [contains_shared_folder]
    simp [List.attach, List.attachWith, List.pmap, contains_shared_folder]
  · have h1 : parse_child (to_dict (.line (⟨"l1", .unknown, .unknown, .tNone, false,
        ⟨0, false⟩, none, none, 0⟩ : Line)))
        [("buck", ⟨"buck", [⟨"l3", .unknown, .unknown, .tNone, false, ⟨0, false⟩,
          none, none, 0⟩], fun _ => []⟩)] [] =
        some (some (.line ⟨"l1", .unknown, .unknown, .tNone, false, ⟨0, false⟩,
          none, none, 0⟩)) := by
      rw [parse_child_line_eq _ _ _ (by rw [to_dict_line]; rfl), to_dict_line, line_round_trip]
    have h2 : parse_child (to_dict (.folder "inner" .unknown .unknown (.tRatio 50 10) []
        true .collapsed none none none))
        [("buck", ⟨"buck", [⟨"l3", .unknown, .unknown, .tNone, false, ⟨0, false⟩,
          none, none, 0⟩], fun _ => []⟩)] [] =
        some (some (.folder "inner" .unknown .unknown (.tRatio 50 10) []
          true .collapsed none none none)) := by
      rw [parse_child_folder_eq _ _ _ (by rw [to_dict_folder]; rfl), folder_from_dict_to_dict,
        List.map_nil, parse_children_nil]
      rfl
    have h3 : parse_child (to_dict (.shared_folder "sh" .unknown .unknown .tNone [] true .line
        none none none
        ⟨"buck", [⟨"l3", .unknown, .unknown, .tNone, false, ⟨0, false⟩, none, none, 0⟩],
          fun _ => []⟩ 42))
        [("buck", ⟨"buck", [⟨"l3", .unknown, .unknown, .tNone, false, ⟨0, false⟩,
          none, none, 0⟩], fun _ => []⟩)] [] =
        some (some (.shared_folder "sh" .unknown .unknown .tNone
          [.line ⟨"l3", .unknown, .unknown, .tNone, false, ⟨0, false⟩, none, none, 0⟩]
          true .line none none none
          ⟨"buck", [⟨"l3", .unknown, .unknown, .tNone, false, ⟨0, false⟩, none, none, 0⟩],
            fun _ => []⟩ 42)) := by
      rw [parse_child_shared_eq _ _ _ (by rw [to_dict_shared]; rfl),
        shared_from_dict_to_dict "sh" .unknown .unknown .tNone [] true .line none none none
          ⟨"buck", [⟨"l3", .unknown, .unknown, .tNone, false, ⟨0, false⟩, none, none, 0⟩],
            fun _ => []⟩ 42
          [("buck", ⟨"buck", [⟨"l3", .unknown, .unknown, .tNone, false, ⟨0, false⟩,
            none, none, 0⟩], fun _ => []⟩)] rfl]
      simp [mk_shared_folder, set_child_attribs_id]
    rw [folder_from_dict_to_dict, List.map_cons, List.map_cons, List.map_cons, List.map_nil,
      parse_children_cons, h1, parse_children_cons, h2, parse_children_cons, h3,
      parse_children_nil]
    simp [mk_folder, set_child_attribs_id]
  · rw [preserved_eq]
    have hpc : preserved_children
        [.line ⟨"l1", .unknown, .unknown, .tNone, false, ⟨0, false⟩, none, none, 0⟩,
         .folder "inner" .unknown .unknown (.tRatio 50 10) [] true .collapsed none none none,
         .shared_folder "sh" .unknown .unknown .tNone [] true .line none none none
           ⟨"buck", [⟨"l3", .unknown, .unknown, .tNone, false, ⟨0, false⟩, none, none, 0⟩],
             fun _ => []⟩ 42]
        [.line ⟨"l1", .unknown, .unknown, .tNone, false, ⟨0, false⟩, none, none, 0⟩,
         .folder "inner" .unknown .unknown (.tRatio 50 10) [] true .collapsed none none none,
         .shared_folder "sh" .unknown .unknown .tNone
           [.line ⟨"l3", .unknown, .unknown, .tNone, false, ⟨0, false⟩, none, none, 0⟩]
           true .line none none none
           ⟨"buck", [⟨"l3", .unknown, .unknown, .tNone, false, ⟨0, false⟩, none, none, 0⟩],
             fun _ => []⟩ 42] = false := by
      rw [preserved_children, preserved_children, preserved_children]
      have hsh : preserved_eq
          (.shared_folder "sh" .unknown .unknown .tNone [] true .line none none none
            ⟨"buck", [⟨"l3", .unknown, .unknown, .tNone, false, ⟨0, false⟩, none, none, 0⟩],
              fun _ => []⟩ 42)
          (.shared_folder "sh" .unknown .unknown .tNone
            [.line ⟨"l3", .unknown, .unknown, .tNone, false, ⟨0, false⟩, none, none, 0⟩]
            true .line none none none
            ⟨"buck", [⟨"l3", .unknown, .unknown, .tNone, false, ⟨0, false⟩, none, none, 0⟩],
              fun _ => []⟩ 42) = false := by
        rw [preserved_eq]
        have hempty : preserved_children ([] : List Node)
            [.line ⟨"l3", .unknown, .unknown, .tNone, false, ⟨0, false⟩, none, none, 0⟩] =
            false := by
          rw [preserved_children.eq_def]
        rw [hempty]
        simp
      rw [hsh]
      simp
    rw [hpc]
    simp
